import Mathlib

/-!
# fairshares: job scheduling and dispatch engine (`cmd/main.go`)

A shallow embedding of the scheduling core of `cmd/main.go`: the two ticker
producers, the worker dispatch, the three fetch tasks and the offline
notification.

Effects are recorded as a trace of `Event`s in program order.  A computation
either returns (`val = some _`) or terminates the whole process through
`log.Fatal` (`val = none`); nothing runs after that.

External collaborators whose code is outside `cmd/main.go` are parameters:

* `FlexAPI` (package `poolapi`): each fetch task calls it once, so its answer
  is a function of the arguments.  The `ctx` argument only carries the ten
  second deadline; an expired deadline is one of the errors it can answer.
* `Storage` (package `storage`): `GetAddresses` reads the address table, which
  is written only by `RegAddress` in `main` before the tickers start; every
  ticker fire gets its own `Storage` value.
* `MailjetClient`: may be called several times by one task, so it threads a
  state of an arbitrary type `σ` and may answer each call differently.

A channel send `jobch <- j` is recorded as `Event.send j`; `go f(..)` runs the
task in place (the trace keeps the program order of one task, not the
interleaving of several).
-/

namespace Fairshares

variable {σ α β : Type}

/-! ## Definitions -/

def JobFetchWorkers : Int := 0
def JobFetchChart : Int := 1
def JobFetchBalance : Int := 2

/-- The `Job` struct; a field left out of a Go composite literal is the zero value. -/
structure Job where
  Id : Int := 0
  Poolname : String := ""
  Address : String := ""
  Workername : String := ""
  /-- The field `Type` (a reserved word in Lean). -/
  Type_ : Int := 0
  deriving DecidableEq, Repr

structure flexpoolInfo where
  Address : String := ""
  deriving DecidableEq, Repr

structure mailjetInfo where
  Key : String := ""
  Secret : String := ""
  Email : String := ""
  deriving DecidableEq, Repr

structure workerInfo where
  Name : String := ""
  Notify : String := ""
  deriving DecidableEq, Repr

structure tomlConfig where
  Flexpool : flexpoolInfo := {}
  Mailjet : mailjetInfo := {}
  Worker : List workerInfo := []
  deriving DecidableEq, Repr

/-- Modelled from the spec: the worker record answered by `ListWorkers`
(package `poolapi`, not part of `cmd/main.go`), "sequence of {Name, Online: bool}". -/
structure PoolWorker where
  Name : String
  Online : Bool
  deriving DecidableEq, Repr

/-- Modelled from the spec: the chart payload answered by `GetChart`
(package `poolapi`); the dispatch engine hands it to the store unchanged. -/
structure ChartData where
  payload : String
  deriving DecidableEq, Repr

/-- The `mailjet.RecipientV31` fields that `notify` fills in. -/
structure RecipientV31 where
  Email : String
  Name : String
  deriving DecidableEq, Repr

/-- The `mailjet.InfoMessagesV31` fields that `notify` fills in. -/
structure InfoMessagesV31 where
  From : RecipientV31
  To : List RecipientV31
  Subject : String
  TextPart : String
  deriving DecidableEq, Repr

inductive Event where
  /-- A line written by `log.Println` / `log.Printf` / `log.Fatal`. -/
  | log (line : String)
  /-- The channel send `jobch <- j`. -/
  | send (j : Job)
  /-- Entry into `notify(worker)`. -/
  | notify (worker : String)
  /-- A call `mailjet.NewMailjetClient(key, secret).SendMailV31(msg)` and the error it returned. -/
  | SendMailV31 (key secret : String) (msg : InfoMessagesV31) (err : Option String)
  | GetAddresses (poolname : String)
  | GetWorkers (address : String)
  | GetWorkersChart (address workername : String)
  | GetBalance (address : String)
  | SaveWorkerChart (poolname address workername : String) (result : ChartData)
  | SaveBalance (poolname address : String) (balance : Int)
  /-- The call `time.Sleep(d)`, with `d` in seconds. -/
  | Sleep (seconds : Nat)
  deriving DecidableEq, Repr

/-- What a computation did: its trace, the mail service state it leaves, and its
value; `val = none` means the process was terminated by `log.Fatal`. -/
structure Outcome (σ α : Type) where
  trace : List Event
  state : σ
  val : Option α

/-- A computation over the mail service state `σ`. -/
def Proc (σ α : Type) : Type := σ → Outcome σ α

namespace Proc

def ret (a : α) : Proc σ α := fun s => ⟨[], s, some a⟩

def andThen (x : Proc σ α) (f : α → Proc σ β) : Proc σ β := fun s =>
  match x s with
  | ⟨t, s1, some a⟩ =>
    match f a s1 with
    | ⟨t2, s2, b⟩ => ⟨t ++ t2, s2, b⟩
  | ⟨t, s1, none⟩ => ⟨t, s1, none⟩

instance : Monad (Proc σ) where
  pure := ret
  bind := andThen

/-- Record one event. -/
def emit (e : Event) : Proc σ Unit := fun s => ⟨[e], s, some ()⟩

/-- The call `log.Fatal(err)`: writes the line and exits the process. -/
def logFatal (line : String) : Proc σ α := fun s => ⟨[Event.log line], s, none⟩

end Proc

/-- The calls of `poolapi.FlexAPI` used by the fetch tasks; each answers the
pair `(err, value)` that the Go code destructures. -/
structure FlexAPI where
  GetWorkers : String → Option String × List PoolWorker
  GetWorkersChart : String → String → Option String × ChartData
  GetBalance : String → Option String × Int

/-- The calls of `storage.Storage` used by the engine.  `SaveWorkerChart`
returns nothing, so only its call is recorded. -/
structure Storage where
  GetAddresses : String → Option String × List String
  SaveBalance : String → String → Int → Option String

/-- The mail service: `SendMailV31` answers `(res, err)` and may change its state. -/
structure MailjetClient (σ : Type) where
  SendMailV31 : String → String → InfoMessagesV31 → σ → (String × Option String) × σ

/-- The call `mailjetClient.SendMailV31(&messages)`. -/
def sendMail {σ : Type} (mj : MailjetClient σ) (key secret : String) (msg : InfoMessagesV31) :
    Proc σ (String × Option String) := fun s =>
  match mj.SendMailV31 key secret msg s with
  | ((res, err), s1) => ⟨[Event.SendMailV31 key secret msg err], s1, some (res, err)⟩

/-- The message `notify` builds for the configured entry `w`. -/
def notifyMessage (conf : tomlConfig) (worker : String) (w : workerInfo) : InfoMessagesV31 :=
  { From := { Email := conf.Mailjet.Email, Name := "Fairshares" }
    To := [{ Email := w.Notify, Name := worker }]
    Subject := w.Name ++ " Is Offline"
    TextPart := "Worker `" ++ w.Name ++
      "` Is Offline.\n\nPlease check your pool: https://www.flexpool.io/miner/eth/" ++
      conf.Flexpool.Address ++ "." }

/-- The loop `for _, w := range conf.Worker` of `notify`, over the entries still to visit. -/
def notifyLoop (conf : tomlConfig) (mj : MailjetClient σ) (worker : String) :
    List workerInfo → Proc σ Unit
  | [] => pure ()
  | w :: ws => do
    if w.Name = worker then
      Proc.emit (.log (w.Name ++ " is offline, sending notification: " ++ w.Notify))
      if conf.Mailjet.Key ≠ "" ∧ conf.Mailjet.Secret ≠ "" ∧ conf.Mailjet.Email ≠ "" then
        let r ← sendMail mj conf.Mailjet.Key conf.Mailjet.Secret (notifyMessage conf worker w)
        match r.2 with
        | some err => Proc.logFatal err
        | none => Proc.emit (.log ("Mailjet: " ++ r.1))
    notifyLoop conf mj worker ws

/-- The function `notify(worker)`; `conf` is the global configuration. -/
def notify (conf : tomlConfig) (mj : MailjetClient σ) (worker : String) : Proc σ Unit := do
  Proc.emit (.notify worker)
  notifyLoop conf mj worker conf.Worker

/-- The loop `for _, worker := range workers` of `fetchWorker`. -/
def fetchWorkerLoop (conf : tomlConfig) (mj : MailjetClient σ) (poolname address : String) :
    List PoolWorker → Proc σ Unit
  | [] => pure ()
  | worker :: rest => do
    Proc.emit (.log ("add fetch chart job poolname " ++ poolname ++ " address " ++ address ++
      " workers " ++ worker.Name))
    Proc.emit (.send { Type_ := JobFetchChart, Address := address, Poolname := poolname,
                       Workername := worker.Name })
    if worker.Online = false then
      notify conf mj worker.Name
    fetchWorkerLoop conf mj poolname address rest

def fetchWorker (conf : tomlConfig) (mj : MailjetClient σ) (flexapi : FlexAPI)
    (poolname address : String) : Proc σ Unit := do
  Proc.emit (.log ("run fetchWorker:  " ++ poolname ++ " " ++ address))
  Proc.emit (.GetWorkers address)
  match flexapi.GetWorkers address with
  | (some err, _) => Proc.emit (.log ("flexapi.GetWorkers error " ++ err))
  | (none, workers) => fetchWorkerLoop conf mj poolname address workers

def fetchWorkerChart (flexapi : FlexAPI) (poolname address workername : String) :
    Proc σ Unit := do
  Proc.emit (.log ("run fetchWorkerChart:  " ++ poolname ++ " " ++ address ++ " " ++ workername))
  Proc.emit (.GetWorkersChart address workername)
  match flexapi.GetWorkersChart address workername with
  | (some err, _) => Proc.emit (.log ("flexapi.GetWorkersChart error " ++ err))
  | (none, result) => Proc.emit (.SaveWorkerChart poolname address workername result)

def fetchBalance (flexapi : FlexAPI) (store : Storage) (poolname address : String) :
    Proc σ Unit := do
  Proc.emit (.log ("run fetchBalance:  " ++ poolname ++ " " ++ address))
  Proc.emit (.GetBalance address)
  match flexapi.GetBalance address with
  | (some err, _) => Proc.emit (.log ("flexapi.GetBalance error " ++ err))
  | (none, balance) => do
    Proc.emit (.SaveBalance poolname address balance)
    match store.SaveBalance poolname address balance with
    | some err =>
      Proc.emit (.log ("save balance error: " ++ err ++ " " ++ address ++ " " ++ toString balance))
    | none => Proc.emit (.log "balance saved")

/-- One iteration of the `for { select { case j := <-jobch: .. } }` loop of
`runworker`, for the dequeued job `j`. -/
def runworkerJob (conf : tomlConfig) (mj : MailjetClient σ) (flexapi : FlexAPI) (store : Storage)
    (jobid : Int) (j : Job) : Proc σ Unit := do
  Proc.emit (.log ("job " ++ toString j.Type_ ++ " data " ++ j.Address ++ " input: " ++
    toString jobid ++ " "))
  if j.Type_ = JobFetchWorkers then
    fetchWorker conf mj flexapi j.Poolname j.Address
  else if j.Type_ = JobFetchChart then
    fetchWorkerChart flexapi j.Poolname j.Address j.Workername
  else if j.Type_ = JobFetchBalance then
    fetchBalance flexapi store j.Poolname j.Address
  Proc.emit (.Sleep 2)

/-- The function `runworker`, for the jobs it dequeues, in order. -/
def runworker (conf : tomlConfig) (mj : MailjetClient σ) (flexapi : FlexAPI) (store : Storage)
    (jobid : Int) : List Job → Proc σ Unit
  | [] => pure ()
  | j :: js => do
    runworkerJob conf mj flexapi store jobid j
    runworker conf mj flexapi store jobid js

/-- The loop `for _, address := range addresses` of a ticker, sending jobs of type `ty`. -/
def tickAddresses (ty : Int) (poolname : String) : List String → Proc σ Unit
  | [] => pure ()
  | address :: rest => do
    Proc.emit (.send { Type_ := ty, Address := address, Poolname := poolname })
    tickAddresses ty poolname rest

/-- The loop `for _, poolname := range poolnames` of a ticker: the body of
`case <-dataTicker.C:`. The two tickers differ only in the job type `ty`. -/
def tickPools (ty : Int) (store : Storage) : List String → Proc σ Unit
  | [] => pure ()
  | poolname :: rest => do
    Proc.emit (.GetAddresses poolname)
    match store.GetAddresses poolname with
    | (some err, _) => Proc.emit (.log err)
    | (none, addresses) => tickAddresses ty poolname addresses
    tickPools ty store rest

/-- One fire of the ticker of `FetchDataTicker`. -/
def FetchDataTick (store : Storage) (poolnames : List String) : Proc σ Unit :=
  tickPools JobFetchWorkers store poolnames

/-- One fire of the ticker of `FetchBalanceTicker`. -/
def FetchBalanceTick (store : Storage) (poolnames : List String) : Proc σ Unit :=
  tickPools JobFetchBalance store poolnames

/-- The loop of a ticker function after its first log line, over the successive
fires of its ticker; `fires` gives the store as it is at each fire. -/
def tickerLoop (ty : Int) (poolnames : List String) : List Storage → Proc σ Unit
  | [] => pure ()
  | store :: later => do
    tickPools ty store poolnames
    tickerLoop ty poolnames later

/-- The function `FetchDataTicker`, observed over the fires `fires` of its 30 minute ticker. -/
def FetchDataTicker (fires : List Storage) (poolnames : List String) : Proc σ Unit := do
  Proc.emit (.log "run fetchDataTicker")
  tickerLoop JobFetchWorkers poolnames fires

/-- The function `FetchBalanceTicker`, observed over the fires `fires` of its 10 minute ticker. -/
def FetchBalanceTicker (fires : List Storage) (poolnames : List String) : Proc σ Unit := do
  Proc.emit (.log "run fetchBalanceTicker")
  tickerLoop JobFetchBalance poolnames fires

/-- The job of a channel send. -/
def Event.asJob : Event → Option Job
  | .send j => some j
  | _ => none

/-- The argument of a call to `notify`. -/
def Event.asNotify : Event → Option String
  | .notify w => some w
  | _ => none

/-- The message of a call to `SendMailV31`. -/
def Event.asMail : Event → Option InfoMessagesV31
  | .SendMailV31 _ _ m _ => some m
  | _ => none

/-- The error returned by a call to `SendMailV31`. -/
def Event.asMailError : Event → Option String
  | .SendMailV31 _ _ _ err => err
  | _ => none

/-- The jobs sent on the job channel, in order. -/
def jobsOf (t : List Event) : List Job := t.filterMap Event.asJob

/-- The arguments of the calls to `notify`, in order. -/
def notifiesOf (t : List Event) : List String := t.filterMap Event.asNotify

/-- The messages handed to `SendMailV31`, in order. -/
def mailsOf (t : List Event) : List InfoMessagesV31 := t.filterMap Event.asMail

/-- The errors returned by `SendMailV31`, in order. -/
def mailErrorsOf (t : List Event) : List String := t.filterMap Event.asMailError

/-- Whether an event is a gateway call. -/
def Event.isGateway : Event → Bool
  | .GetWorkers _ => true
  | .GetWorkersChart _ _ => true
  | .GetBalance _ => true
  | _ => false

/-- Whether an event is a persistence call. -/
def Event.isPersistence : Event → Bool
  | .SaveWorkerChart _ _ _ _ => true
  | .SaveBalance _ _ _ => true
  | _ => false

/-- The gateway and persistence calls, in order. -/
def callsOf (t : List Event) : List Event :=
  t.filter (fun e => e.isGateway || e.isPersistence)

/-- The persistence calls, in order. -/
def savesOf (t : List Event) : List Event :=
  t.filter Event.isPersistence

/-- Whether the mail credentials are configured, as tested by `notify`. -/
def mailConfigured (conf : tomlConfig) : Prop :=
  conf.Mailjet.Key ≠ "" ∧ conf.Mailjet.Secret ≠ "" ∧ conf.Mailjet.Email ≠ ""

instance (conf : tomlConfig) : Decidable (mailConfigured conf) := by
  unfold mailConfigured; infer_instance

/-- The configured entries named `worker`, in configuration order. -/
def matchingEntries (worker : String) (ws : List workerInfo) : List workerInfo :=
  ws.filter (fun w => w.Name = worker)

/-- The messages `notify(worker)` has to send for the entries `ws`: one per entry named
`worker`, in order, when the credentials are configured. -/
def notifyMessages (conf : tomlConfig) (worker : String) (ws : List workerInfo) :
    List InfoMessagesV31 :=
  if mailConfigured conf then (matchingEntries worker ws).map (notifyMessage conf worker) else []

/-- The sends made for the messages `msgs`, each with the error it returned: the
messages are sent one after the other, and none is sent after the first send that
returns an error. -/
def sendUntilError (mj : MailjetClient σ) (key secret : String) :
    List InfoMessagesV31 → σ → List (InfoMessagesV31 × Option String)
  | [], _ => []
  | m :: ms, s =>
    match mj.SendMailV31 key secret m s with
    | ((_, none), s1) => (m, none) :: sendUntilError mj key secret ms s1
    | ((_, some e), _) => [(m, some e)]

/-- The names of the workers reported offline, in order. -/
def offlineNames (workers : List PoolWorker) : List String :=
  (workers.filter (fun w => w.Online = false)).map (fun w => w.Name)

/-- The `FetchChart` job `fetchWorker` sends for a worker. -/
def chartJob (poolname address : String) (w : PoolWorker) : Job :=
  { Id := 0, Poolname := poolname, Address := address, Workername := w.Name,
    Type_ := JobFetchChart }

/-- When a computation terminates the process, its trace ends with a send that
returned an error and the fatal log line, and no earlier send returned an error. -/
def FatalEnd (o : Outcome σ α) : Prop :=
  o.val = none → ∃ t k c m e,
    o.trace = t ++ [Event.SendMailV31 k c m (some e), Event.log e] ∧ mailErrorsOf t = []

/-- The job a ticker of type `ty` sends for an address of a pool. -/
def tickJob (ty : Int) (poolname address : String) : Job :=
  { Id := 0, Poolname := poolname, Address := address, Workername := "", Type_ := ty }

/-- The jobs one pool contributes to a tick: none when `GetAddresses` answers an error. -/
def poolJobs (ty : Int) (store : Storage) (poolname : String) : List Job :=
  match store.GetAddresses poolname with
  | (some _, _) => []
  | (none, addresses) => addresses.map (tickJob ty poolname)

/-- The task `runworker` starts for a job, by the job type; none for any other type. -/
def dispatch (conf : tomlConfig) (mj : MailjetClient σ) (flexapi : FlexAPI) (store : Storage)
    (j : Job) : Proc σ Unit :=
  if j.Type_ = JobFetchWorkers then fetchWorker conf mj flexapi j.Poolname j.Address
  else if j.Type_ = JobFetchChart then fetchWorkerChart flexapi j.Poolname j.Address j.Workername
  else if j.Type_ = JobFetchBalance then fetchBalance flexapi store j.Poolname j.Address
  else pure ()

/-- The wiring of `main`: `poolname := "flexpool"`, passed to both tickers as
`[]string{poolname}`. -/
def mainPoolnames : List String := ["flexpool"]

structure System where
  /-- Whether the process is still running. -/
  alive : Bool
  /-- The jobs sent on `jobch` and not yet received by a worker. -/
  queue : List Job
  /-- Every job sent on `jobch` so far. -/
  sent : List Job

/-- The system when the tickers and the worker have just been started. -/
def System.init : System := { alive := true, queue := [], sent := [] }

inductive Step (conf : tomlConfig) (poolnames : List String) (stores : Storage → Prop) :
    System → System → Prop where
  /-- A fire of the ticker of `FetchDataTicker`. -/
  | dataTick (sys : System) (store : Storage) (hs : stores store) (h : sys.alive = true) :
      Step conf poolnames stores sys
        { alive := ((FetchDataTick store poolnames ()).val).isSome
          queue := sys.queue ++ jobsOf (FetchDataTick store poolnames ()).trace
          sent := sys.sent ++ jobsOf (FetchDataTick store poolnames ()).trace }
  /-- A fire of the ticker of `FetchBalanceTicker`. -/
  | balanceTick (sys : System) (store : Storage) (hs : stores store) (h : sys.alive = true) :
      Step conf poolnames stores sys
        { alive := ((FetchBalanceTick store poolnames ()).val).isSome
          queue := sys.queue ++ jobsOf (FetchBalanceTick store poolnames ()).trace
          sent := sys.sent ++ jobsOf (FetchBalanceTick store poolnames ()).trace }
  /-- A worker receives the job `j` and processes it. -/
  | work (sys : System) {σ : Type} (mj : MailjetClient σ) (s : σ) (flexapi : FlexAPI)
      (store : Storage) (jobid : Int) (q1 q2 : List Job) (j : Job) (h : sys.alive = true)
      (hq : sys.queue = q1 ++ j :: q2) :
      Step conf poolnames stores sys
        { alive := ((runworkerJob conf mj flexapi store jobid j s).val).isSome
          queue := q1 ++ q2 ++ jobsOf (runworkerJob conf mj flexapi store jobid j s).trace
          sent := sys.sent ++ jobsOf (runworkerJob conf mj flexapi store jobid j s).trace }

/-- The states the system can reach from its start. -/
def Reachable (conf : tomlConfig) (poolnames : List String) (stores : Storage → Prop)
    (sys : System) : Prop :=
  Relation.ReflTransGen (Step conf poolnames stores) System.init sys

/-- A job names a pool passed to the tickers and an address that a store answered for it. -/
def Job.tracked (poolnames : List String) (stores : Storage → Prop) (j : Job) : Prop :=
  j.Poolname ∈ poolnames ∧
    ∃ store, stores store ∧ (store.GetAddresses j.Poolname).1 = none ∧
      j.Address ∈ (store.GetAddresses j.Poolname).2

/-- A configuration with one worker entry and mail credentials. -/
def demoConf : tomlConfig :=
  { Flexpool := { Address := "0xABC" }
    Mailjet := { Key := "key", Secret := "secret", Email := "pool@example.org" }
    Worker := [{ Name := "rig1", Notify := "owner@example.org" }] }

/-- A configuration in which two worker entries carry the same name. -/
def twinConf : tomlConfig :=
  { Flexpool := { Address := "0xABC" }
    Mailjet := { Key := "key", Secret := "secret", Email := "pool@example.org" }
    Worker := [{ Name := "rig1", Notify := "owner@example.org" },
               { Name := "rig1", Notify := "backup@example.org" }] }

/-- A mail service that accepts every message. -/
def okMail : MailjetClient Unit :=
  { SendMailV31 := fun _ _ _ s => (("sent", none), s) }

/-- A mail service that rejects every message. -/
def failMail : MailjetClient Unit :=
  { SendMailV31 := fun _ _ _ s => (("", some "mailjet: unauthorized"), s) }

/-- A pool API that answers one offline worker, a chart and a balance. -/
def demoAPI : FlexAPI :=
  { GetWorkers := fun _ => (none, [{ Name := "rig1", Online := false }])
    GetWorkersChart := fun _ _ => (none, { payload := "chart" })
    GetBalance := fun _ => (none, 42) }

/-- A pool API whose every call runs into its deadline. -/
def downAPI : FlexAPI :=
  { GetWorkers := fun _ => (some "context deadline exceeded", [])
    GetWorkersChart := fun _ _ => (some "context deadline exceeded", { payload := "" })
    GetBalance := fun _ => (some "context deadline exceeded", 0) }

/-- A pool API that answers two workers, the first offline. -/
def twoRigAPI : FlexAPI :=
  { GetWorkers := fun _ => (none, [{ Name := "rig1", Online := false },
                                    { Name := "rig2", Online := false }])
    GetWorkersChart := fun _ _ => (none, { payload := "chart" })
    GetBalance := fun _ => (none, 42) }

/-- A store tracking the address `0xABC` for every pool. -/
def demoStore : Storage :=
  { GetAddresses := fun _ => (none, ["0xABC"])
    SaveBalance := fun _ _ _ => none }

/-- A store whose address query fails for the pool `flexpool` only. -/
def brokenStore : Storage :=
  { GetAddresses := fun p => if p = "flexpool" then (some "database is locked", [])
                             else (none, ["0xDEF"])
    SaveBalance := fun _ _ _ => some "database is locked" }

/-- A store in which the registered address is the empty string, as after
`RegAddress` of a configuration without `Flexpool.Address`. -/
def blankStore : Storage :=
  { GetAddresses := fun _ => (none, [""])
    SaveBalance := fun _ _ _ => none }

/-! ## Theorems -/

@[simp] theorem Proc.pure_apply (a : α) (s : σ) :
    (pure a : Proc σ α) s = ⟨[], s, some a⟩ := rfl

theorem Proc.bind_apply (x : Proc σ α) (f : α → Proc σ β) (s : σ) :
    (x >>= f) s = Proc.andThen x f s := rfl

@[simp] theorem Proc.emit_apply (e : Event) (s : σ) :
    (Proc.emit e : Proc σ Unit) s = ⟨[e], s, some ()⟩ := rfl

@[simp] theorem Proc.logFatal_apply (line : String) (s : σ) :
    (Proc.logFatal line : Proc σ α) s = ⟨[Event.log line], s, none⟩ := rfl

@[simp] theorem Proc.bind_trace (x : Proc σ α) (f : α → Proc σ β) (s : σ) :
    ((x >>= f) s).trace =
      (x s).trace ++ (match (x s).val with
        | some a => (f a (x s).state).trace
        | none => []) := by
  rw [Proc.bind_apply]
  unfold Proc.andThen
  rcases x s with ⟨t, s1, _ | a⟩ <;> simp

@[simp] theorem Proc.bind_val (x : Proc σ α) (f : α → Proc σ β) (s : σ) :
    ((x >>= f) s).val =
      (match (x s).val with
        | some a => (f a (x s).state).val
        | none => none) := by
  rw [Proc.bind_apply]
  unfold Proc.andThen
  rcases x s with ⟨t, s1, _ | a⟩ <;> simp

@[simp] theorem Proc.bind_state (x : Proc σ α) (f : α → Proc σ β) (s : σ) :
    ((x >>= f) s).state =
      (match (x s).val with
        | some a => (f a (x s).state).state
        | none => (x s).state) := by
  rw [Proc.bind_apply]
  unfold Proc.andThen
  rcases x s with ⟨t, s1, _ | a⟩ <;> simp

@[simp] theorem jobsOf_nil : jobsOf [] = [] := rfl

@[simp] theorem notifiesOf_nil : notifiesOf [] = [] := rfl

@[simp] theorem mailsOf_nil : mailsOf [] = [] := rfl

@[simp] theorem mailErrorsOf_nil : mailErrorsOf [] = [] := rfl

@[simp] theorem jobsOf_cons (e : Event) (t : List Event) :
    jobsOf (e :: t) = e.asJob.toList ++ jobsOf t := by
  unfold jobsOf
  cases h : e.asJob <;> simp [List.filterMap_cons, h]

@[simp] theorem notifiesOf_cons (e : Event) (t : List Event) :
    notifiesOf (e :: t) = e.asNotify.toList ++ notifiesOf t := by
  unfold notifiesOf
  cases h : e.asNotify <;> simp [List.filterMap_cons, h]

@[simp] theorem mailsOf_cons (e : Event) (t : List Event) :
    mailsOf (e :: t) = e.asMail.toList ++ mailsOf t := by
  unfold mailsOf
  cases h : e.asMail <;> simp [List.filterMap_cons, h]

@[simp] theorem mailErrorsOf_cons (e : Event) (t : List Event) :
    mailErrorsOf (e :: t) = e.asMailError.toList ++ mailErrorsOf t := by
  unfold mailErrorsOf
  cases h : e.asMailError <;> simp [List.filterMap_cons, h]

@[simp] theorem jobsOf_append (t u : List Event) : jobsOf (t ++ u) = jobsOf t ++ jobsOf u := by
  simp [jobsOf]

@[simp] theorem notifiesOf_append (t u : List Event) :
    notifiesOf (t ++ u) = notifiesOf t ++ notifiesOf u := by
  simp [notifiesOf]

@[simp] theorem mailsOf_append (t u : List Event) : mailsOf (t ++ u) = mailsOf t ++ mailsOf u := by
  simp [mailsOf]

@[simp] theorem mailErrorsOf_append (t u : List Event) :
    mailErrorsOf (t ++ u) = mailErrorsOf t ++ mailErrorsOf u := by
  simp [mailErrorsOf]

@[simp] theorem Event.asJob_send (j : Job) : (Event.send j).asJob = some j := rfl
@[simp] theorem Event.asJob_log (l : String) : (Event.log l).asJob = none := rfl
@[simp] theorem Event.asJob_notify (w : String) : (Event.notify w).asJob = none := rfl
@[simp] theorem Event.asJob_SendMailV31 (k c : String) (m : InfoMessagesV31) (e : Option String) :
    (Event.SendMailV31 k c m e).asJob = none := rfl
@[simp] theorem Event.asJob_GetAddresses (p : String) : (Event.GetAddresses p).asJob = none := rfl
@[simp] theorem Event.asJob_GetWorkers (a : String) : (Event.GetWorkers a).asJob = none := rfl
@[simp] theorem Event.asJob_GetWorkersChart (a w : String) :
    (Event.GetWorkersChart a w).asJob = none := rfl
@[simp] theorem Event.asJob_GetBalance (a : String) : (Event.GetBalance a).asJob = none := rfl
@[simp] theorem Event.asJob_SaveWorkerChart (p a w : String) (r : ChartData) :
    (Event.SaveWorkerChart p a w r).asJob = none := rfl
@[simp] theorem Event.asJob_SaveBalance (p a : String) (b : Int) :
    (Event.SaveBalance p a b).asJob = none := rfl
@[simp] theorem Event.asJob_Sleep (n : Nat) : (Event.Sleep n).asJob = none := rfl

@[simp] theorem Event.asNotify_notify (w : String) : (Event.notify w).asNotify = some w := rfl
@[simp] theorem Event.asNotify_log (l : String) : (Event.log l).asNotify = none := rfl
@[simp] theorem Event.asNotify_send (j : Job) : (Event.send j).asNotify = none := rfl
@[simp] theorem Event.asNotify_SendMailV31 (k c : String) (m : InfoMessagesV31)
    (e : Option String) : (Event.SendMailV31 k c m e).asNotify = none := rfl
@[simp] theorem Event.asNotify_GetAddresses (p : String) :
    (Event.GetAddresses p).asNotify = none := rfl
@[simp] theorem Event.asNotify_GetWorkers (a : String) : (Event.GetWorkers a).asNotify = none := rfl
@[simp] theorem Event.asNotify_GetWorkersChart (a w : String) :
    (Event.GetWorkersChart a w).asNotify = none := rfl
@[simp] theorem Event.asNotify_GetBalance (a : String) : (Event.GetBalance a).asNotify = none := rfl
@[simp] theorem Event.asNotify_SaveWorkerChart (p a w : String) (r : ChartData) :
    (Event.SaveWorkerChart p a w r).asNotify = none := rfl
@[simp] theorem Event.asNotify_SaveBalance (p a : String) (b : Int) :
    (Event.SaveBalance p a b).asNotify = none := rfl
@[simp] theorem Event.asNotify_Sleep (n : Nat) : (Event.Sleep n).asNotify = none := rfl

@[simp] theorem Event.asMail_SendMailV31 (k c : String) (m : InfoMessagesV31)
    (e : Option String) : (Event.SendMailV31 k c m e).asMail = some m := rfl
@[simp] theorem Event.asMail_log (l : String) : (Event.log l).asMail = none := rfl
@[simp] theorem Event.asMail_send (j : Job) : (Event.send j).asMail = none := rfl
@[simp] theorem Event.asMail_notify (w : String) : (Event.notify w).asMail = none := rfl
@[simp] theorem Event.asMail_GetAddresses (p : String) : (Event.GetAddresses p).asMail = none := rfl
@[simp] theorem Event.asMail_GetWorkers (a : String) : (Event.GetWorkers a).asMail = none := rfl
@[simp] theorem Event.asMail_GetWorkersChart (a w : String) :
    (Event.GetWorkersChart a w).asMail = none := rfl
@[simp] theorem Event.asMail_GetBalance (a : String) : (Event.GetBalance a).asMail = none := rfl
@[simp] theorem Event.asMail_SaveWorkerChart (p a w : String) (r : ChartData) :
    (Event.SaveWorkerChart p a w r).asMail = none := rfl
@[simp] theorem Event.asMail_SaveBalance (p a : String) (b : Int) :
    (Event.SaveBalance p a b).asMail = none := rfl
@[simp] theorem Event.asMail_Sleep (n : Nat) : (Event.Sleep n).asMail = none := rfl

@[simp] theorem Event.asMailError_SendMailV31 (k c : String) (m : InfoMessagesV31)
    (e : Option String) : (Event.SendMailV31 k c m e).asMailError = e := rfl
@[simp] theorem Event.asMailError_log (l : String) : (Event.log l).asMailError = none := rfl
@[simp] theorem Event.asMailError_send (j : Job) : (Event.send j).asMailError = none := rfl
@[simp] theorem Event.asMailError_notify (w : String) : (Event.notify w).asMailError = none := rfl
@[simp] theorem Event.asMailError_GetAddresses (p : String) :
    (Event.GetAddresses p).asMailError = none := rfl
@[simp] theorem Event.asMailError_GetWorkers (a : String) :
    (Event.GetWorkers a).asMailError = none := rfl
@[simp] theorem Event.asMailError_GetWorkersChart (a w : String) :
    (Event.GetWorkersChart a w).asMailError = none := rfl
@[simp] theorem Event.asMailError_GetBalance (a : String) :
    (Event.GetBalance a).asMailError = none := rfl
@[simp] theorem Event.asMailError_SaveWorkerChart (p a w : String) (r : ChartData) :
    (Event.SaveWorkerChart p a w r).asMailError = none := rfl
@[simp] theorem Event.asMailError_SaveBalance (p a : String) (b : Int) :
    (Event.SaveBalance p a b).asMailError = none := rfl
@[simp] theorem Event.asMailError_Sleep (n : Nat) : (Event.Sleep n).asMailError = none := rfl

@[simp] theorem Event.isGateway_log (l : String) : (Event.log l).isGateway = false := rfl
@[simp] theorem Event.isGateway_send (j : Job) : (Event.send j).isGateway = false := rfl
@[simp] theorem Event.isGateway_notify (w : String) : (Event.notify w).isGateway = false := rfl
@[simp] theorem Event.isGateway_SendMailV31 (k c : String) (m : InfoMessagesV31)
    (e : Option String) : (Event.SendMailV31 k c m e).isGateway = false := rfl
@[simp] theorem Event.isGateway_GetAddresses (p : String) :
    (Event.GetAddresses p).isGateway = false := rfl
@[simp] theorem Event.isGateway_GetWorkers (a : String) :
    (Event.GetWorkers a).isGateway = true := rfl
@[simp] theorem Event.isGateway_GetWorkersChart (a w : String) :
    (Event.GetWorkersChart a w).isGateway = true := rfl
@[simp] theorem Event.isGateway_GetBalance (a : String) :
    (Event.GetBalance a).isGateway = true := rfl
@[simp] theorem Event.isGateway_SaveWorkerChart (p a w : String) (r : ChartData) :
    (Event.SaveWorkerChart p a w r).isGateway = false := rfl
@[simp] theorem Event.isGateway_SaveBalance (p a : String) (b : Int) :
    (Event.SaveBalance p a b).isGateway = false := rfl
@[simp] theorem Event.isGateway_Sleep (n : Nat) : (Event.Sleep n).isGateway = false := rfl

@[simp] theorem Event.isPersistence_log (l : String) : (Event.log l).isPersistence = false := rfl
@[simp] theorem Event.isPersistence_send (j : Job) : (Event.send j).isPersistence = false := rfl
@[simp] theorem Event.isPersistence_notify (w : String) :
    (Event.notify w).isPersistence = false := rfl
@[simp] theorem Event.isPersistence_SendMailV31 (k c : String) (m : InfoMessagesV31)
    (e : Option String) : (Event.SendMailV31 k c m e).isPersistence = false := rfl
@[simp] theorem Event.isPersistence_GetAddresses (p : String) :
    (Event.GetAddresses p).isPersistence = false := rfl
@[simp] theorem Event.isPersistence_GetWorkers (a : String) :
    (Event.GetWorkers a).isPersistence = false := rfl
@[simp] theorem Event.isPersistence_GetWorkersChart (a w : String) :
    (Event.GetWorkersChart a w).isPersistence = false := rfl
@[simp] theorem Event.isPersistence_GetBalance (a : String) :
    (Event.GetBalance a).isPersistence = false := rfl
@[simp] theorem Event.isPersistence_SaveWorkerChart (p a w : String) (r : ChartData) :
    (Event.SaveWorkerChart p a w r).isPersistence = true := rfl
@[simp] theorem Event.isPersistence_SaveBalance (p a : String) (b : Int) :
    (Event.SaveBalance p a b).isPersistence = true := rfl
@[simp] theorem Event.isPersistence_Sleep (n : Nat) : (Event.Sleep n).isPersistence = false := rfl

@[simp] theorem callsOf_append (t u : List Event) : callsOf (t ++ u) = callsOf t ++ callsOf u := by
  simp [callsOf]

@[simp] theorem callsOf_nil : callsOf [] = [] := rfl

@[simp] theorem savesOf_nil : savesOf [] = [] := rfl

@[simp] theorem callsOf_cons (e : Event) (t : List Event) :
    callsOf (e :: t) = (if e.isGateway || e.isPersistence then [e] else []) ++ callsOf t := by
  unfold callsOf
  by_cases h : (e.isGateway || e.isPersistence) = true <;> simp [List.filter_cons, h]

@[simp] theorem savesOf_cons (e : Event) (t : List Event) :
    savesOf (e :: t) = (if e.isPersistence then [e] else []) ++ savesOf t := by
  unfold savesOf
  by_cases h : e.isPersistence = true <;> simp [List.filter_cons, h]

@[simp] theorem savesOf_append (t u : List Event) : savesOf (t ++ u) = savesOf t ++ savesOf u := by
  simp [savesOf]

theorem notifyLoop_spec (conf : tomlConfig) (mj : MailjetClient σ) (worker : String)
    (ws : List workerInfo) (s : σ) :
    jobsOf (notifyLoop conf mj worker ws s).trace = [] ∧
    notifiesOf (notifyLoop conf mj worker ws s).trace = [] ∧
    callsOf (notifyLoop conf mj worker ws s).trace = [] ∧
    ((notifyLoop conf mj worker ws s).val = none ↔
      mailErrorsOf (notifyLoop conf mj worker ws s).trace ≠ []) ∧
    mailsOf (notifyLoop conf mj worker ws s).trace <+: notifyMessages conf worker ws ∧
    ((notifyLoop conf mj worker ws s).val = some () →
      mailsOf (notifyLoop conf mj worker ws s).trace = notifyMessages conf worker ws) ∧
    (notifyMessages conf worker ws ≠ [] → mailsOf (notifyLoop conf mj worker ws s).trace ≠ []) := by
  induction ws generalizing s with
  | nil => simp [notifyLoop, notifyMessages, matchingEntries]
  | cons w ws ih =>
    by_cases hn : w.Name = worker
    · by_cases hc : mailConfigured conf
      · rcases hm : mj.SendMailV31 conf.Mailjet.Key conf.Mailjet.Secret
          (notifyMessage conf worker w) s with ⟨⟨res, err⟩, s1⟩
        have hc2 := hc
        unfold mailConfigured at hc2
        cases err with
        | none =>
          have h := ih s1
          simp only [notifyMessages, hc, if_true] at h ⊢
          obtain ⟨h1, h2, h3, h4, h5, h6, -⟩ := h
          simp [notifyLoop, hn, hc2, sendMail, hm, matchingEntries, List.prefix_cons_inj] at *
          exact ⟨h1, h2, h3, h4, h5, h6⟩
        | some e =>
          simp [notifyLoop, notifyMessages, hn, hc, hc2, sendMail, hm, matchingEntries]
      · have hc2 := hc
        unfold mailConfigured at hc2
        have h := ih s
        simp only [notifyMessages, hc, if_false] at h ⊢
        obtain ⟨h1, h2, h3, h4, h5, h6, -⟩ := h
        simp [notifyLoop, hn, hc2] at *
        exact ⟨h1, h2, h3, h4, h5, fun _ => h5⟩
    · have h := ih s
      obtain ⟨h1, h2, h3, h4, h5, h6, h7⟩ := h
      have hm : notifyMessages conf worker (w :: ws) = notifyMessages conf worker ws := by
        simp [notifyMessages, matchingEntries, hn]
      rw [hm]
      simp [notifyLoop, hn]
      exact ⟨h1, h2, h3, h4, h5, h6, h7⟩

theorem notify_spec (conf : tomlConfig) (mj : MailjetClient σ) (worker : String) (s : σ) :
    jobsOf (notify conf mj worker s).trace = [] ∧
    notifiesOf (notify conf mj worker s).trace = [worker] ∧
    callsOf (notify conf mj worker s).trace = [] ∧
    ((notify conf mj worker s).val = none ↔ mailErrorsOf (notify conf mj worker s).trace ≠ []) ∧
    mailsOf (notify conf mj worker s).trace <+: notifyMessages conf worker conf.Worker ∧
    ((notify conf mj worker s).val = some () →
      mailsOf (notify conf mj worker s).trace = notifyMessages conf worker conf.Worker) ∧
    (notifyMessages conf worker conf.Worker ≠ [] → mailsOf (notify conf mj worker s).trace ≠ []) := by
  obtain ⟨h1, h2, h3, h4, h5, h6, h7⟩ := notifyLoop_spec conf mj worker conf.Worker s
  simp [notify]
  exact ⟨h1, h2, h3, h4, h5, h6, h7⟩

theorem fetchWorkerLoop_spec (conf : tomlConfig) (mj : MailjetClient σ) (poolname address : String)
    (workers : List PoolWorker) (s : σ) :
    callsOf (fetchWorkerLoop conf mj poolname address workers s).trace = [] ∧
    ((fetchWorkerLoop conf mj poolname address workers s).val = none ↔
      mailErrorsOf (fetchWorkerLoop conf mj poolname address workers s).trace ≠ []) ∧
    ((fetchWorkerLoop conf mj poolname address workers s).val = some () →
      jobsOf (fetchWorkerLoop conf mj poolname address workers s).trace =
        workers.map (chartJob poolname address) ∧
      notifiesOf (fetchWorkerLoop conf mj poolname address workers s).trace =
        offlineNames workers) ∧
    ((fetchWorkerLoop conf mj poolname address workers s).val = none →
      ∃ pre w post, workers = pre ++ w :: post ∧ w.Online = false ∧
        jobsOf (fetchWorkerLoop conf mj poolname address workers s).trace =
          (pre ++ [w]).map (chartJob poolname address) ∧
        notifiesOf (fetchWorkerLoop conf mj poolname address workers s).trace =
          offlineNames (pre ++ [w])) := by
  induction workers generalizing s with
  | nil => simp [fetchWorkerLoop, offlineNames]
  | cons w rest ih =>
    obtain ⟨name, online⟩ := w
    cases online with
    | true =>
      obtain ⟨h1, h2, h3, h4⟩ := ih s
      refine ⟨?_, ?_, ?_, ?_⟩
      · simpa [fetchWorkerLoop] using h1
      · simpa [fetchWorkerLoop] using h2
      · intro hv
        have hv2 : (fetchWorkerLoop conf mj poolname address rest s).val = some () := by
          simpa [fetchWorkerLoop] using hv
        obtain ⟨h5, h6⟩ := h3 hv2
        simp [fetchWorkerLoop, h5, h6, offlineNames, chartJob]
      · intro hv
        have hv2 : (fetchWorkerLoop conf mj poolname address rest s).val = none := by
          simpa [fetchWorkerLoop] using hv
        obtain ⟨pre, x, post, e1, e2, e3, e4⟩ := h4 hv2
        refine ⟨⟨name, true⟩ :: pre, x, post, by simp [e1], e2, ?_, ?_⟩
        · simp [fetchWorkerLoop, e3, chartJob]
        · simp [fetchWorkerLoop, e4, offlineNames]
    | false =>
      obtain ⟨n1, n2, n3, n4, -, -, -⟩ := notify_spec conf mj name s
      cases hv : (notify conf mj name s).val with
      | none =>
        have n5 : mailErrorsOf (notify conf mj name s).trace ≠ [] := n4.mp hv
        refine ⟨?_, ?_, ?_, ?_⟩
        · simp [fetchWorkerLoop, hv, n3]
        · simpa [fetchWorkerLoop, hv] using n5
        · simp [fetchWorkerLoop, hv]
        · intro _
          refine ⟨[], ⟨name, false⟩, rest, rfl, rfl, ?_, ?_⟩
          · simp [fetchWorkerLoop, hv, n1, chartJob]
          · simp [fetchWorkerLoop, hv, n2, offlineNames]
      | some u =>
        obtain ⟨h1, h2, h3, h4⟩ := ih (notify conf mj name s).state
        have n5 : mailErrorsOf (notify conf mj name s).trace = [] := by
          by_contra hne
          rw [n4.mpr hne] at hv
          cases hv
        refine ⟨?_, ?_, ?_, ?_⟩
        · simpa [fetchWorkerLoop, hv, n3] using h1
        · simpa [fetchWorkerLoop, hv, n5] using h2
        · intro hw
          have hw2 : (fetchWorkerLoop conf mj poolname address rest
              (notify conf mj name s).state).val = some () := by
            simpa [fetchWorkerLoop, hv] using hw
          obtain ⟨h5, h6⟩ := h3 hw2
          simp [fetchWorkerLoop, hv, n1, n2, h5, h6, offlineNames, chartJob]
        · intro hw
          have hw2 : (fetchWorkerLoop conf mj poolname address rest
              (notify conf mj name s).state).val = none := by
            simpa [fetchWorkerLoop, hv] using hw
          obtain ⟨pre, x, post, e1, e2, e3, e4⟩ := h4 hw2
          refine ⟨⟨name, false⟩ :: pre, x, post, by simp [e1], e2, ?_, ?_⟩
          · simp [fetchWorkerLoop, hv, n1, e3, chartJob]
          · simp [fetchWorkerLoop, hv, n2, e4, offlineNames]

theorem FatalEnd.bind (x : Proc σ α) (f : α → Proc σ β) (s : σ)
    (hx : FatalEnd (x s)) (hx2 : (x s).val ≠ none → mailErrorsOf (x s).trace = [])
    (hf : ∀ a, FatalEnd (f a (x s).state)) : FatalEnd ((x >>= f) s) := by
  intro hv
  cases hxv : (x s).val with
  | none =>
    obtain ⟨t, k, c, m, e, h1, h2⟩ := hx hxv
    exact ⟨t, k, c, m, e, by simp [hxv, h1], h2⟩
  | some a =>
    have hfv : (f a (x s).state).val = none := by simpa [hxv] using hv
    obtain ⟨t, k, c, m, e, h1, h2⟩ := hf a hfv
    refine ⟨(x s).trace ++ t, k, c, m, e, by simp [hxv, h1], ?_⟩
    simp [h2, hx2 (by simp [hxv])]

theorem notifyLoop_fatalEnd (conf : tomlConfig) (mj : MailjetClient σ) (worker : String)
    (ws : List workerInfo) (s : σ) : FatalEnd (notifyLoop conf mj worker ws s) := by
  induction ws generalizing s with
  | nil => intro h; simp [notifyLoop] at h
  | cons w ws ih =>
    by_cases hn : w.Name = worker
    · by_cases hc : mailConfigured conf
      · rcases hm : mj.SendMailV31 conf.Mailjet.Key conf.Mailjet.Secret
          (notifyMessage conf worker w) s with ⟨⟨res, err⟩, s1⟩
        have hc2 := hc
        unfold mailConfigured at hc2
        cases err with
        | none =>
          intro hv
          have hv2 : (notifyLoop conf mj worker ws s1).val = none := by
            simpa [notifyLoop, hn, hc2, sendMail, hm] using hv
          obtain ⟨t, k, c, m, e, h1, h2⟩ := ih s1 hv2
          refine ⟨[Event.log (w.Name ++ " is offline, sending notification: " ++ w.Notify),
            Event.SendMailV31 conf.Mailjet.Key conf.Mailjet.Secret (notifyMessage conf worker w)
              none, Event.log ("Mailjet: " ++ res)] ++ t, k, c, m, e, ?_, ?_⟩
          · simp [notifyLoop, hn, hc2, sendMail, hm, h1]
          · simp [h2]
        | some e =>
          intro _
          refine ⟨[Event.log (w.Name ++ " is offline, sending notification: " ++ w.Notify)],
            conf.Mailjet.Key, conf.Mailjet.Secret, notifyMessage conf worker w, e, ?_, ?_⟩
          · simp [notifyLoop, hn, hc2, sendMail, hm]
          · simp
      · have hc2 := hc
        unfold mailConfigured at hc2
        intro hv
        have hv2 : (notifyLoop conf mj worker ws s).val = none := by
          simpa [notifyLoop, hn, hc2] using hv
        obtain ⟨t, k, c, m, e, h1, h2⟩ := ih s hv2
        refine ⟨[Event.log (w.Name ++ " is offline, sending notification: " ++ w.Notify)] ++ t,
          k, c, m, e, ?_, ?_⟩
        · simp [notifyLoop, hn, hc2, h1]
        · simp [h2]
    · intro hv
      have hv2 : (notifyLoop conf mj worker ws s).val = none := by
        simpa [notifyLoop, hn] using hv
      obtain ⟨t, k, c, m, e, h1, h2⟩ := ih s hv2
      exact ⟨t, k, c, m, e, by simp [notifyLoop, hn, h1], h2⟩

theorem notify_fatalEnd (conf : tomlConfig) (mj : MailjetClient σ) (worker : String) (s : σ) :
    FatalEnd (notify conf mj worker s) := by
  unfold notify
  apply FatalEnd.bind
  · intro h; simp at h
  · intro _; simp
  · intro _; exact notifyLoop_fatalEnd conf mj worker conf.Worker _

theorem fetchWorkerLoop_fatalEnd (conf : tomlConfig) (mj : MailjetClient σ)
    (poolname address : String) (workers : List PoolWorker) (s : σ) :
    FatalEnd (fetchWorkerLoop conf mj poolname address workers s) := by
  induction workers generalizing s with
  | nil => intro h; simp [fetchWorkerLoop] at h
  | cons w rest ih =>
    obtain ⟨name, online⟩ := w
    cases online with
    | true =>
      intro hv
      have hv2 : (fetchWorkerLoop conf mj poolname address rest s).val = none := by
        simpa [fetchWorkerLoop] using hv
      obtain ⟨t, k, c, m, e, h1, h2⟩ := ih s hv2
      refine ⟨[Event.log ("add fetch chart job poolname " ++ poolname ++ " address " ++ address ++
        " workers " ++ name), Event.send (chartJob poolname address ⟨name, true⟩)] ++ t,
        k, c, m, e, ?_, ?_⟩
      · simp [fetchWorkerLoop, h1, chartJob]
      · simp [h2]
    | false =>
      have hn := notify_fatalEnd conf mj name s
      obtain ⟨-, -, -, n4, -, -, -⟩ := notify_spec conf mj name s
      intro hv
      cases hnv : (notify conf mj name s).val with
      | none =>
        obtain ⟨t, k, c, m, e, h1, h2⟩ := hn hnv
        refine ⟨[Event.log ("add fetch chart job poolname " ++ poolname ++ " address " ++
          address ++ " workers " ++ name), Event.send (chartJob poolname address ⟨name, false⟩)]
          ++ t, k, c, m, e, ?_, ?_⟩
        · simp [fetchWorkerLoop, hnv, h1, chartJob]
        · simp [h2]
      | some u =>
        have n5 : mailErrorsOf (notify conf mj name s).trace = [] := by
          by_contra hne
          rw [n4.mpr hne] at hnv
          cases hnv
        have hv2 : (fetchWorkerLoop conf mj poolname address rest
            (notify conf mj name s).state).val = none := by
          simpa [fetchWorkerLoop, hnv] using hv
        obtain ⟨t, k, c, m, e, h1, h2⟩ := ih _ hv2
        refine ⟨[Event.log ("add fetch chart job poolname " ++ poolname ++ " address " ++
          address ++ " workers " ++ name), Event.send (chartJob poolname address ⟨name, false⟩)]
          ++ (notify conf mj name s).trace ++ t, k, c, m, e, ?_, ?_⟩
        · simp [fetchWorkerLoop, hnv, h1, chartJob]
        · simp [h2, n5]

theorem fetchWorker_ok (conf : tomlConfig) (mj : MailjetClient σ) (flexapi : FlexAPI)
    (poolname address : String) (workers : List PoolWorker) (s : σ)
    (h : flexapi.GetWorkers address = (none, workers)) :
    (fetchWorker conf mj flexapi poolname address s).trace =
      [Event.log ("run fetchWorker:  " ++ poolname ++ " " ++ address), Event.GetWorkers address]
        ++ (fetchWorkerLoop conf mj poolname address workers s).trace ∧
    (fetchWorker conf mj flexapi poolname address s).val =
      (fetchWorkerLoop conf mj poolname address workers s).val := by
  simp [fetchWorker, h]

theorem fetchWorker_err (conf : tomlConfig) (mj : MailjetClient σ) (flexapi : FlexAPI)
    (poolname address : String) (s : σ) (h : (flexapi.GetWorkers address).1 ≠ none) :
    ∃ err, (fetchWorker conf mj flexapi poolname address s).trace =
      [Event.log ("run fetchWorker:  " ++ poolname ++ " " ++ address), Event.GetWorkers address,
        Event.log ("flexapi.GetWorkers error " ++ err)] ∧
    (fetchWorker conf mj flexapi poolname address s).val = some () := by
  rcases hg : flexapi.GetWorkers address with ⟨_ | err, workers⟩
  · simp [hg] at h
  · exact ⟨err, by simp [fetchWorker, hg]⟩

theorem fetchWorkerChart_ok (flexapi : FlexAPI) (poolname address workername : String)
    (result : ChartData) (s : σ) (h : flexapi.GetWorkersChart address workername = (none, result)) :
    (fetchWorkerChart flexapi poolname address workername s).trace =
      [Event.log ("run fetchWorkerChart:  " ++ poolname ++ " " ++ address ++ " " ++ workername),
        Event.GetWorkersChart address workername,
        Event.SaveWorkerChart poolname address workername result] ∧
    (fetchWorkerChart flexapi poolname address workername s).val = some () := by
  simp [fetchWorkerChart, h]

theorem fetchWorkerChart_err (flexapi : FlexAPI) (poolname address workername : String)
    (s : σ) (h : (flexapi.GetWorkersChart address workername).1 ≠ none) :
    ∃ err, (fetchWorkerChart flexapi poolname address workername s).trace =
      [Event.log ("run fetchWorkerChart:  " ++ poolname ++ " " ++ address ++ " " ++ workername),
        Event.GetWorkersChart address workername,
        Event.log ("flexapi.GetWorkersChart error " ++ err)] ∧
    (fetchWorkerChart flexapi poolname address workername s).val = some () := by
  rcases hg : flexapi.GetWorkersChart address workername with ⟨_ | err, result⟩
  · simp [hg] at h
  · exact ⟨err, by simp [fetchWorkerChart, hg]⟩

theorem fetchBalance_ok (flexapi : FlexAPI) (store : Storage) (poolname address : String)
    (balance : Int) (s : σ) (h : flexapi.GetBalance address = (none, balance)) :
    ∃ line, (fetchBalance flexapi store poolname address s).trace =
      [Event.log ("run fetchBalance:  " ++ poolname ++ " " ++ address),
        Event.GetBalance address, Event.SaveBalance poolname address balance, Event.log line] ∧
    (fetchBalance flexapi store poolname address s).val = some () := by
  cases hs : store.SaveBalance poolname address balance with
  | none => exact ⟨"balance saved", by simp [fetchBalance, h, hs]⟩
  | some err =>
    exact ⟨"save balance error: " ++ err ++ " " ++ address ++ " " ++ toString balance,
      by simp [fetchBalance, h, hs]⟩

theorem fetchBalance_err (flexapi : FlexAPI) (store : Storage) (poolname address : String)
    (s : σ) (h : (flexapi.GetBalance address).1 ≠ none) :
    ∃ err, (fetchBalance flexapi store poolname address s).trace =
      [Event.log ("run fetchBalance:  " ++ poolname ++ " " ++ address),
        Event.GetBalance address, Event.log ("flexapi.GetBalance error " ++ err)] ∧
    (fetchBalance flexapi store poolname address s).val = some () := by
  rcases hg : flexapi.GetBalance address with ⟨_ | err, balance⟩
  · simp [hg] at h
  · exact ⟨err, by simp [fetchBalance, hg]⟩

theorem tickAddresses_spec (ty : Int) (poolname : String) (addresses : List String) (s : σ) :
    jobsOf (tickAddresses ty poolname addresses s).trace = addresses.map (tickJob ty poolname) ∧
    (tickAddresses ty poolname addresses s).val = some () ∧
    (tickAddresses ty poolname addresses s).state = s ∧
    mailErrorsOf (tickAddresses ty poolname addresses s).trace = [] ∧
    mailsOf (tickAddresses ty poolname addresses s).trace = [] ∧
    notifiesOf (tickAddresses ty poolname addresses s).trace = [] ∧
    callsOf (tickAddresses ty poolname addresses s).trace = [] := by
  induction addresses with
  | nil => simp [tickAddresses]
  | cons a rest ih =>
    obtain ⟨h1, h2, h3, h4, h5, h6, h7⟩ := ih
    simp [tickAddresses, h1, h2, h3, h4, h5, h6, h7, tickJob]

theorem tickPools_spec (ty : Int) (store : Storage) (poolnames : List String) (s : σ) :
    jobsOf (tickPools ty store poolnames s).trace = poolnames.flatMap (poolJobs ty store) ∧
    (tickPools ty store poolnames s).val = some () ∧
    (tickPools ty store poolnames s).state = s ∧
    mailErrorsOf (tickPools ty store poolnames s).trace = [] ∧
    mailsOf (tickPools ty store poolnames s).trace = [] ∧
    notifiesOf (tickPools ty store poolnames s).trace = [] ∧
    callsOf (tickPools ty store poolnames s).trace = [] := by
  induction poolnames with
  | nil => simp [tickPools]
  | cons p rest ih =>
    obtain ⟨h1, h2, h3, h4, h5, h6, h7⟩ := ih
    rcases hg : store.GetAddresses p with ⟨_ | err, addresses⟩
    · obtain ⟨a1, a2, a3, a4, a5, a6, a7⟩ := tickAddresses_spec ty p addresses s
      simp [tickPools, hg, poolJobs, a1, a2, a3, a4, a5, a6, a7, h1, h2, h3, h4, h5, h6, h7]
    · simp [tickPools, hg, poolJobs, h1, h2, h3, h4, h5, h6, h7]

theorem tickerLoop_spec (ty : Int) (poolnames : List String) (fires : List Storage) (s : σ) :
    jobsOf (tickerLoop ty poolnames fires s).trace =
      fires.flatMap (fun store => poolnames.flatMap (poolJobs ty store)) ∧
    (tickerLoop ty poolnames fires s).val = some () ∧
    (tickerLoop ty poolnames fires s).state = s := by
  induction fires with
  | nil => simp [tickerLoop]
  | cons store later ih =>
    obtain ⟨h1, h2, h3⟩ := ih
    obtain ⟨a1, a2, a3, -⟩ := tickPools_spec ty store poolnames s
    simp [tickerLoop, a1, a2, a3, h1, h2, h3]

theorem poolJobs_of_ok (ty : Int) (store : Storage) (p : String)
    (h : (store.GetAddresses p).1 = none) :
    poolJobs ty store p = (store.GetAddresses p).2.map (tickJob ty p) := by
  rcases hg : store.GetAddresses p with ⟨_ | err, addresses⟩
  · simp [poolJobs, hg]
  · simp [hg] at h

theorem poolJobs_of_err (ty : Int) (store : Storage) (p : String)
    (h : (store.GetAddresses p).1 ≠ none) : poolJobs ty store p = [] := by
  rcases hg : store.GetAddresses p with ⟨_ | err, addresses⟩
  · simp [hg] at h
  · simp [poolJobs, hg]

theorem poolJobs_poolname (ty : Int) (store : Storage) (p : String) (j : Job)
    (h : j ∈ poolJobs ty store p) :
    j.Poolname = p ∧ (store.GetAddresses p).1 = none ∧ j.Address ∈ (store.GetAddresses p).2 ∧
      j.Type_ = ty ∧ j.Workername = "" ∧ j.Id = 0 := by
  rcases hg : store.GetAddresses p with ⟨_ | err, addresses⟩
  · simp only [poolJobs, hg, List.mem_map] at h
    obtain ⟨a, ha, rfl⟩ := h
    simp [tickJob, ha]
  · simp [poolJobs, hg] at h

theorem fetchWorker_spec (conf : tomlConfig) (mj : MailjetClient σ) (flexapi : FlexAPI)
    (poolname address : String) (s : σ) :
    callsOf (fetchWorker conf mj flexapi poolname address s).trace = [Event.GetWorkers address] ∧
    ((fetchWorker conf mj flexapi poolname address s).val = none ↔
      mailErrorsOf (fetchWorker conf mj flexapi poolname address s).trace ≠ []) ∧
    FatalEnd (fetchWorker conf mj flexapi poolname address s) ∧
    (∀ j ∈ jobsOf (fetchWorker conf mj flexapi poolname address s).trace,
      ∃ w ∈ (flexapi.GetWorkers address).2, j = chartJob poolname address w) := by
  rcases hg : flexapi.GetWorkers address with ⟨_ | err, workers⟩
  · obtain ⟨t1, v1⟩ := fetchWorker_ok conf mj flexapi poolname address workers s hg
    obtain ⟨h1, h2, h3, h4⟩ := fetchWorkerLoop_spec conf mj poolname address workers s
    have hf := fetchWorkerLoop_fatalEnd conf mj poolname address workers s
    refine ⟨by simp [t1, h1], by simpa [t1, v1] using h2, ?_, ?_⟩
    · intro hv
      rw [v1] at hv
      obtain ⟨t, k, c, m, e, e1, e2⟩ := hf hv
      exact ⟨[Event.log ("run fetchWorker:  " ++ poolname ++ " " ++ address),
        Event.GetWorkers address] ++ t, k, c, m, e, by simp [t1, e1], by simp [e2]⟩
    · intro j hj
      rw [t1] at hj
      simp only [jobsOf_append, jobsOf_cons, Event.asJob_log, Event.asJob_GetWorkers,
        Option.toList_none, jobsOf_nil, List.nil_append] at hj
      cases hv : (fetchWorkerLoop conf mj poolname address workers s).val with
      | some u =>
        rw [(h3 hv).1, List.mem_map] at hj
        obtain ⟨w, hw, rfl⟩ := hj
        exact ⟨w, hw, rfl⟩
      | none =>
        obtain ⟨pre, w, post, e1, -, e3, -⟩ := h4 hv
        rw [e3, List.mem_map] at hj
        obtain ⟨x, hx, rfl⟩ := hj
        refine ⟨x, ?_, rfl⟩
        simp only [e1]
        simp only [List.mem_append, List.mem_singleton, List.mem_cons] at hx ⊢
        tauto
  · have hne : (flexapi.GetWorkers address).1 ≠ none := by simp [hg]
    obtain ⟨e, t1, v1⟩ := fetchWorker_err conf mj flexapi poolname address s hne
    refine ⟨by simp [t1], by simp [t1, v1], ?_, ?_⟩
    · intro hv; simp [v1] at hv
    · intro j hj; simp [t1] at hj

theorem runworkerJob_spec (conf : tomlConfig) (mj : MailjetClient σ) (flexapi : FlexAPI)
    (store : Storage) (jobid : Int) (j : Job) (s : σ) :
    (runworkerJob conf mj flexapi store jobid j s).trace =
      Event.log ("job " ++ toString j.Type_ ++ " data " ++ j.Address ++ " input: " ++
        toString jobid ++ " ") :: (dispatch conf mj flexapi store j s).trace ++
        (match (dispatch conf mj flexapi store j s).val with
          | some _ => [Event.Sleep 2]
          | none => []) ∧
    (runworkerJob conf mj flexapi store jobid j s).val =
      (dispatch conf mj flexapi store j s).val := by
  by_cases h0 : j.Type_ = 0
  · cases hv : (fetchWorker conf mj flexapi j.Poolname j.Address s).val <;>
      simp [runworkerJob, dispatch, JobFetchWorkers, h0, hv]
  · by_cases h1 : j.Type_ = 1
    · cases hv : (fetchWorkerChart flexapi j.Poolname j.Address j.Workername s).val <;>
        simp [runworkerJob, dispatch, JobFetchWorkers, JobFetchChart, h1, hv]
    · by_cases h2 : j.Type_ = 2
      · cases hv : (fetchBalance flexapi store j.Poolname j.Address s).val <;>
          simp [runworkerJob, dispatch, JobFetchWorkers, JobFetchChart, JobFetchBalance, h2, hv]
      · simp [runworkerJob, dispatch, JobFetchWorkers, JobFetchChart, JobFetchBalance, h0, h1, h2]

theorem dispatch_workers (conf : tomlConfig) (mj : MailjetClient σ) (flexapi : FlexAPI)
    (store : Storage) (j : Job) (h : j.Type_ = JobFetchWorkers) :
    dispatch conf mj flexapi store j = fetchWorker conf mj flexapi j.Poolname j.Address := by
  simp [dispatch, h]

theorem dispatch_chart (conf : tomlConfig) (mj : MailjetClient σ) (flexapi : FlexAPI)
    (store : Storage) (j : Job) (h : j.Type_ = JobFetchChart) :
    dispatch conf mj flexapi store j =
      fetchWorkerChart flexapi j.Poolname j.Address j.Workername := by
  simp [dispatch, h, JobFetchWorkers, JobFetchChart]

theorem dispatch_balance (conf : tomlConfig) (mj : MailjetClient σ) (flexapi : FlexAPI)
    (store : Storage) (j : Job) (h : j.Type_ = JobFetchBalance) :
    dispatch conf mj flexapi store j = fetchBalance flexapi store j.Poolname j.Address := by
  simp [dispatch, h, JobFetchWorkers, JobFetchChart, JobFetchBalance]

theorem dispatch_other (conf : tomlConfig) (mj : MailjetClient σ) (flexapi : FlexAPI)
    (store : Storage) (j : Job) (h0 : j.Type_ ≠ JobFetchWorkers) (h1 : j.Type_ ≠ JobFetchChart)
    (h2 : j.Type_ ≠ JobFetchBalance) :
    dispatch conf mj flexapi store j = pure () := by
  simp [dispatch, h0, h1, h2]

theorem fetchWorkerChart_spec (flexapi : FlexAPI) (poolname address workername : String) (s : σ) :
    (fetchWorkerChart flexapi poolname address workername s).val = some () ∧
    mailErrorsOf (fetchWorkerChart flexapi poolname address workername s).trace = [] ∧
    mailsOf (fetchWorkerChart flexapi poolname address workername s).trace = [] ∧
    jobsOf (fetchWorkerChart flexapi poolname address workername s).trace = [] ∧
    notifiesOf (fetchWorkerChart flexapi poolname address workername s).trace = [] := by
  rcases hg : flexapi.GetWorkersChart address workername with ⟨_ | err, result⟩ <;>
    simp [fetchWorkerChart, hg]

theorem fetchBalance_spec (flexapi : FlexAPI) (store : Storage) (poolname address : String)
    (s : σ) :
    (fetchBalance flexapi store poolname address s).val = some () ∧
    mailErrorsOf (fetchBalance flexapi store poolname address s).trace = [] ∧
    mailsOf (fetchBalance flexapi store poolname address s).trace = [] ∧
    jobsOf (fetchBalance flexapi store poolname address s).trace = [] ∧
    notifiesOf (fetchBalance flexapi store poolname address s).trace = [] := by
  rcases hg : flexapi.GetBalance address with ⟨_ | err, balance⟩
  · cases hs : store.SaveBalance poolname address balance <;> simp [fetchBalance, hg, hs]
  · simp [fetchBalance, hg]

theorem dispatch_spec (conf : tomlConfig) (mj : MailjetClient σ) (flexapi : FlexAPI)
    (store : Storage) (j : Job) (s : σ) :
    ((dispatch conf mj flexapi store j s).val = none ↔
      mailErrorsOf (dispatch conf mj flexapi store j s).trace ≠ []) ∧
    FatalEnd (dispatch conf mj flexapi store j s) ∧
    (∀ x ∈ jobsOf (dispatch conf mj flexapi store j s).trace,
      j.Type_ = JobFetchWorkers ∧
        ∃ w ∈ (flexapi.GetWorkers j.Address).2, x = chartJob j.Poolname j.Address w) := by
  by_cases h0 : j.Type_ = JobFetchWorkers
  · rw [dispatch_workers conf mj flexapi store j h0]
    obtain ⟨-, a2, a3, a4⟩ := fetchWorker_spec conf mj flexapi j.Poolname j.Address s
    exact ⟨a2, a3, fun x hx => ⟨h0, a4 x hx⟩⟩
  · by_cases h1 : j.Type_ = JobFetchChart
    · rw [dispatch_chart conf mj flexapi store j h1]
      obtain ⟨b1, b2, -, b4, -⟩ := fetchWorkerChart_spec flexapi j.Poolname j.Address j.Workername s
      refine ⟨by simp [b1, b2], ?_, ?_⟩
      · intro hv; simp [b1] at hv
      · intro x hx; simp [b4] at hx
    · by_cases h2 : j.Type_ = JobFetchBalance
      · rw [dispatch_balance conf mj flexapi store j h2]
        obtain ⟨b1, b2, -, b4, -⟩ := fetchBalance_spec flexapi store j.Poolname j.Address s
        refine ⟨by simp [b1, b2], ?_, ?_⟩
        · intro hv; simp [b1] at hv
        · intro x hx; simp [b4] at hx
      · rw [dispatch_other conf mj flexapi store j h0 h1 h2]
        refine ⟨by simp, ?_, ?_⟩
        · intro hv; simp at hv
        · intro x hx; simp at hx

theorem runworkerJob_facts (conf : tomlConfig) (mj : MailjetClient σ) (flexapi : FlexAPI)
    (store : Storage) (jobid : Int) (j : Job) (s : σ) :
    ((runworkerJob conf mj flexapi store jobid j s).val = none ↔
      mailErrorsOf (runworkerJob conf mj flexapi store jobid j s).trace ≠ []) ∧
    FatalEnd (runworkerJob conf mj flexapi store jobid j s) ∧
    (∀ x ∈ jobsOf (runworkerJob conf mj flexapi store jobid j s).trace,
      j.Type_ = JobFetchWorkers ∧
        ∃ w ∈ (flexapi.GetWorkers j.Address).2, x = chartJob j.Poolname j.Address w) ∧
    callsOf (runworkerJob conf mj flexapi store jobid j s).trace =
      callsOf (dispatch conf mj flexapi store j s).trace := by
  obtain ⟨t, v⟩ := runworkerJob_spec conf mj flexapi store jobid j s
  obtain ⟨d1, d2, d3⟩ := dispatch_spec conf mj flexapi store j s
  cases hv : (dispatch conf mj flexapi store j s).val with
  | none =>
    rw [hv] at t v
    refine ⟨?_, ?_, ?_, ?_⟩
    · simpa [t, v, hv] using d1
    · intro _
      obtain ⟨t0, k, c, m, e, e1, e2⟩ := d2 hv
      exact ⟨Event.log ("job " ++ toString j.Type_ ++ " data " ++ j.Address ++ " input: " ++
        toString jobid ++ " ") :: t0, k, c, m, e, by simp [t, e1], by simp [e2]⟩
    · intro x hx
      exact d3 x (by simpa [t] using hx)
    · simp [t]
  | some u =>
    rw [hv] at t v
    refine ⟨?_, ?_, ?_, ?_⟩
    · simpa [t, v, hv] using d1
    · intro h; simp [v] at h
    · intro x hx
      exact d3 x (by simpa [t] using hx)
    · simp [t]

theorem tick_jobs_tracked (ty : Int) (poolnames : List String) (stores : Storage → Prop)
    (store : Storage) (hs : stores store) (j : Job)
    (hj : j ∈ jobsOf (tickPools (σ := Unit) ty store poolnames ()).trace) :
    j.tracked poolnames stores := by
  rw [(tickPools_spec ty store poolnames ()).1, List.mem_flatMap] at hj
  obtain ⟨p, hp, hjp⟩ := hj
  obtain ⟨h1, h2, h3, -⟩ := poolJobs_poolname ty store p j hjp
  subst h1
  exact ⟨hp, store, hs, h2, h3⟩

theorem step_invariant (conf : tomlConfig) (poolnames : List String) (stores : Storage → Prop)
    (a b : System) (hstep : Step conf poolnames stores a b)
    (hq : ∀ j ∈ a.queue, j.tracked poolnames stores)
    (hsent : ∀ j ∈ a.sent, j.tracked poolnames stores) :
    (∀ j ∈ b.queue, j.tracked poolnames stores) ∧ (∀ j ∈ b.sent, j.tracked poolnames stores) := by
  cases hstep with
  | dataTick store hs h =>
    have ht := tick_jobs_tracked JobFetchWorkers poolnames stores store hs
    constructor
    · intro j hj
      rcases List.mem_append.mp hj with h1 | h1
      · exact hq j h1
      · exact ht j h1
    · intro j hj
      rcases List.mem_append.mp hj with h1 | h1
      · exact hsent j h1
      · exact ht j h1
  | balanceTick store hs h =>
    have ht := tick_jobs_tracked JobFetchBalance poolnames stores store hs
    constructor
    · intro j hj
      rcases List.mem_append.mp hj with h1 | h1
      · exact hq j h1
      · exact ht j h1
    · intro j hj
      rcases List.mem_append.mp hj with h1 | h1
      · exact hsent j h1
      · exact ht j h1
  | work mj s flexapi store jobid q1 q2 j0 h hq0 =>
    have hj0 : j0.tracked poolnames stores := hq j0 (by simp [hq0])
    have hnew : ∀ x ∈ jobsOf (runworkerJob conf mj flexapi store jobid j0 s).trace,
        x.tracked poolnames stores := by
      intro x hx
      obtain ⟨-, w, -, rfl⟩ := (runworkerJob_facts conf mj flexapi store jobid j0 s).2.2.1 x hx
      exact hj0
    constructor
    · intro j hj
      rcases List.mem_append.mp hj with h1 | h1
      · exact hq j (by
          rw [hq0]
          rcases List.mem_append.mp h1 with h2 | h2
          · exact List.mem_append_left _ h2
          · exact List.mem_append_right _ (List.mem_cons_of_mem _ h2))
      · exact hnew j h1
    · intro j hj
      rcases List.mem_append.mp hj with h1 | h1
      · exact hsent j h1
      · exact hnew j h1

theorem reachable_invariant (conf : tomlConfig) (poolnames : List String)
    (stores : Storage → Prop) (sys : System) (h : Reachable conf poolnames stores sys) :
    (∀ j ∈ sys.queue, j.tracked poolnames stores) ∧ (∀ j ∈ sys.sent, j.tracked poolnames stores) := by
  induction h with
  | refl => simp [System.init]
  | tail _ hstep ih => exact step_invariant conf poolnames stores _ _ hstep ih.1 ih.2

/-- C1: when `GetWorkers` answers the workers `workers` without error and no mail send of
the run returns an error, `fetchWorker` sends exactly one `FetchChart` job per worker, in the
order of the answer, with the pool name and address of the task, the worker name and `Id` 0,
and calls `notify` exactly once per offline worker, with that worker name, in order. -/
theorem fetchWorker_enqueues_chart_jobs_and_notifies (conf : tomlConfig) (mj : MailjetClient σ)
    (flexapi : FlexAPI) (poolname address : String) (workers : List PoolWorker) (s : σ)
    (hok : flexapi.GetWorkers address = (none, workers))
    (hmail : mailErrorsOf (fetchWorker conf mj flexapi poolname address s).trace = []) :
    jobsOf (fetchWorker conf mj flexapi poolname address s).trace =
      workers.map (fun w =>
        ({ Id := 0, Poolname := poolname, Address := address, Workername := w.Name,
           Type_ := JobFetchChart } : Job)) ∧
    (jobsOf (fetchWorker conf mj flexapi poolname address s).trace).length = workers.length ∧
    notifiesOf (fetchWorker conf mj flexapi poolname address s).trace =
      (workers.filter (fun w => w.Online = false)).map (fun w => w.Name) ∧
    (notifiesOf (fetchWorker conf mj flexapi poolname address s).trace).length =
      (workers.filter (fun w => w.Online = false)).length := by
  obtain ⟨t, v⟩ := fetchWorker_ok conf mj flexapi poolname address workers s hok
  obtain ⟨-, h2, h3, -⟩ := fetchWorkerLoop_spec conf mj poolname address workers s
  have hm : mailErrorsOf (fetchWorkerLoop conf mj poolname address workers s).trace = [] := by
    simpa [t] using hmail
  have hv : (fetchWorkerLoop conf mj poolname address workers s).val = some () := by
    cases hlv : (fetchWorkerLoop conf mj poolname address workers s).val with
    | none => exact absurd hm (h2.mp hlv)
    | some u => rfl
  obtain ⟨hj, hn⟩ := h3 hv
  have hj2 : jobsOf (fetchWorker conf mj flexapi poolname address s).trace =
      workers.map (chartJob poolname address) := by simp [t, hj]
  have hn2 : notifiesOf (fetchWorker conf mj flexapi poolname address s).trace =
      offlineNames workers := by simp [t, hn]
  refine ⟨hj2, by simp [hj2], hn2, by simp [hn2, offlineNames]⟩

/-- Witness for C1: pool `flexpool`, address `0xABC`, answer `[{rig1, offline}]` gives one
`FetchChart` job for `rig1` and one call `notify("rig1")`. -/
theorem fetchWorker_enqueues_chart_jobs_and_notifies_witness :
    jobsOf (fetchWorker demoConf okMail demoAPI "flexpool" "0xABC" ()).trace =
      [{ Id := 0, Poolname := "flexpool", Address := "0xABC", Workername := "rig1",
         Type_ := JobFetchChart }] ∧
    notifiesOf (fetchWorker demoConf okMail demoAPI "flexpool" "0xABC" ()).trace = ["rig1"] := by
  have h := fetchWorker_enqueues_chart_jobs_and_notifies demoConf okMail demoAPI "flexpool"
    "0xABC" [{ Name := "rig1", Online := false }] () rfl (by decide)
  exact ⟨h.1, h.2.2.1⟩

/-- C4: when the gateway call of a fetch task answers an error (an expired deadline is such
an error), the task sends no job, calls `notify` zero times, sends no mail, makes no
persistence call, and returns normally; this holds for `fetchWorker`, `fetchWorkerChart`
and `fetchBalance`. -/
theorem fetch_tasks_drop_job_on_gateway_error (conf : tomlConfig) (mj : MailjetClient σ)
    (flexapi : FlexAPI) (store : Storage) (poolname address workername : String) (s : σ) :
    ((flexapi.GetWorkers address).1 ≠ none →
      jobsOf (fetchWorker conf mj flexapi poolname address s).trace = [] ∧
      notifiesOf (fetchWorker conf mj flexapi poolname address s).trace = [] ∧
      mailsOf (fetchWorker conf mj flexapi poolname address s).trace = [] ∧
      savesOf (fetchWorker conf mj flexapi poolname address s).trace = [] ∧
      (fetchWorker conf mj flexapi poolname address s).val = some ()) ∧
    ((flexapi.GetWorkersChart address workername).1 ≠ none →
      jobsOf (fetchWorkerChart flexapi poolname address workername s).trace = [] ∧
      notifiesOf (fetchWorkerChart flexapi poolname address workername s).trace = [] ∧
      mailsOf (fetchWorkerChart flexapi poolname address workername s).trace = [] ∧
      savesOf (fetchWorkerChart flexapi poolname address workername s).trace = [] ∧
      (fetchWorkerChart flexapi poolname address workername s).val = some ()) ∧
    ((flexapi.GetBalance address).1 ≠ none →
      jobsOf (fetchBalance flexapi store poolname address s).trace = [] ∧
      notifiesOf (fetchBalance flexapi store poolname address s).trace = [] ∧
      mailsOf (fetchBalance flexapi store poolname address s).trace = [] ∧
      savesOf (fetchBalance flexapi store poolname address s).trace = [] ∧
      (fetchBalance flexapi store poolname address s).val = some ()) := by
  refine ⟨?_, ?_, ?_⟩
  · intro h
    obtain ⟨e, t, v⟩ := fetchWorker_err conf mj flexapi poolname address s h
    simp [t, v]
  · intro h
    obtain ⟨e, t, v⟩ := fetchWorkerChart_err flexapi poolname address workername s h
    simp [t, v]
  · intro h
    obtain ⟨e, t, v⟩ := fetchBalance_err flexapi store poolname address s h
    simp [t, v]

/-- Witness for C4: every call of the pool API runs into its deadline. -/
theorem fetch_tasks_drop_job_on_gateway_error_witness :
    (jobsOf (fetchWorker demoConf okMail downAPI "flexpool" "0xABC" ()).trace = [] ∧
      notifiesOf (fetchWorker demoConf okMail downAPI "flexpool" "0xABC" ()).trace = [] ∧
      mailsOf (fetchWorker demoConf okMail downAPI "flexpool" "0xABC" ()).trace = [] ∧
      savesOf (fetchWorker demoConf okMail downAPI "flexpool" "0xABC" ()).trace = [] ∧
      (fetchWorker demoConf okMail downAPI "flexpool" "0xABC" ()).val = some ()) ∧
    (savesOf (fetchWorkerChart downAPI "flexpool" "0xABC" "rig1" ()).trace = [] ∧
      (fetchWorkerChart downAPI "flexpool" "0xABC" "rig1" ()).val = some ()) ∧
    (savesOf (fetchBalance downAPI demoStore "flexpool" "0xABC" ()).trace = [] ∧
      (fetchBalance downAPI demoStore "flexpool" "0xABC" ()).val = some ()) := by
  have h := fetch_tasks_drop_job_on_gateway_error demoConf okMail downAPI demoStore
    "flexpool" "0xABC" "rig1" ()
  have h1 := h.1 (by decide)
  have h2 := h.2.1 (by decide)
  have h3 := h.2.2 (by decide)
  exact ⟨h1, ⟨h2.2.2.2.1, h2.2.2.2.2⟩, ⟨h3.2.2.2.1, h3.2.2.2.2⟩⟩

theorem notifyLoop_send_keys (conf : tomlConfig) (mj : MailjetClient σ) (worker : String)
    (ws : List workerInfo) (s : σ) (k c : String) (m : InfoMessagesV31) (err : Option String)
    (h : Event.SendMailV31 k c m err ∈ (notifyLoop conf mj worker ws s).trace) :
    k = conf.Mailjet.Key ∧ c = conf.Mailjet.Secret := by
  induction ws generalizing s with
  | nil => simp [notifyLoop] at h
  | cons w ws ih =>
    by_cases hn : w.Name = worker
    · by_cases hc : mailConfigured conf
      · rcases hm : mj.SendMailV31 conf.Mailjet.Key conf.Mailjet.Secret
          (notifyMessage conf worker w) s with ⟨⟨res, e0⟩, s1⟩
        have hc2 := hc
        unfold mailConfigured at hc2
        cases e0 with
        | none =>
          simp [notifyLoop, hn, hc2, sendMail, hm] at h
          rcases h with h | h
          · exact ⟨h.1, h.2.1⟩
          · exact ih s1 h
        | some e =>
          simp [notifyLoop, hn, hc2, sendMail, hm] at h
          exact ⟨h.1, h.2.1⟩
      · have hc2 := hc
        unfold mailConfigured at hc2
        simp [notifyLoop, hn, hc2] at h
        exact ih s h
    · simp [notifyLoop, hn] at h
      exact ih s h

theorem notify_send_keys (conf : tomlConfig) (mj : MailjetClient σ) (worker : String)
    (s : σ) (k c : String) (m : InfoMessagesV31) (err : Option String)
    (h : Event.SendMailV31 k c m err ∈ (notify conf mj worker s).trace) :
    k = conf.Mailjet.Key ∧ c = conf.Mailjet.Secret := by
  simp [notify] at h
  exact notifyLoop_send_keys conf mj worker conf.Worker s k c m err h

theorem notifyLoop_sends (conf : tomlConfig) (mj : MailjetClient σ) (worker : String)
    (ws : List workerInfo) (s : σ) :
    mailsOf (notifyLoop conf mj worker ws s).trace =
      (sendUntilError mj conf.Mailjet.Key conf.Mailjet.Secret
        (notifyMessages conf worker ws) s).map Prod.fst ∧
    mailErrorsOf (notifyLoop conf mj worker ws s).trace =
      (sendUntilError mj conf.Mailjet.Key conf.Mailjet.Secret
        (notifyMessages conf worker ws) s).filterMap Prod.snd := by
  induction ws generalizing s with
  | nil => simp [notifyLoop, notifyMessages, matchingEntries, sendUntilError]
  | cons w ws ih =>
    by_cases hn : w.Name = worker
    · by_cases hc : mailConfigured conf
      · rcases hm : mj.SendMailV31 conf.Mailjet.Key conf.Mailjet.Secret
          (notifyMessage conf worker w) s with ⟨⟨res, err⟩, s1⟩
        have hc2 := hc
        unfold mailConfigured at hc2
        have hN : notifyMessages conf worker (w :: ws) =
            notifyMessage conf worker w :: notifyMessages conf worker ws := by
          simp [notifyMessages, matchingEntries, hc, hn]
        rw [hN]
        cases err with
        | none =>
          obtain ⟨h1, h2⟩ := ih s1
          simp [notifyLoop, hn, hc2, sendMail, hm, sendUntilError, h1, h2]
        | some e =>
          simp [notifyLoop, hn, hc2, sendMail, hm, sendUntilError]
      · have hc2 := hc
        unfold mailConfigured at hc2
        obtain ⟨h1, h2⟩ := ih s
        have hN : ∀ l, notifyMessages conf worker l = [] := by
          intro l; simp [notifyMessages, hc]
        rw [hN] at h1 h2 ⊢
        simp [notifyLoop, hn, hc2, h1, h2]
    · obtain ⟨h1, h2⟩ := ih s
      have hN : notifyMessages conf worker (w :: ws) = notifyMessages conf worker ws := by
        simp [notifyMessages, matchingEntries, hn]
      rw [hN]
      simp [notifyLoop, hn, h1, h2]

theorem notify_sends (conf : tomlConfig) (mj : MailjetClient σ) (worker : String) (s : σ) :
    mailsOf (notify conf mj worker s).trace =
      (sendUntilError mj conf.Mailjet.Key conf.Mailjet.Secret
        (notifyMessages conf worker conf.Worker) s).map Prod.fst ∧
    mailErrorsOf (notify conf mj worker s).trace =
      (sendUntilError mj conf.Mailjet.Key conf.Mailjet.Secret
        (notifyMessages conf worker conf.Worker) s).filterMap Prod.snd := by
  obtain ⟨h1, h2⟩ := notifyLoop_sends conf mj worker conf.Worker s
  simp [notify, h1, h2]

/-- C5, as stated, fails: with two configured entries named `rig1` and the credentials set,
one call `notify("rig1")` sends two emails, not one. -/
theorem notify_sends_two_mails_for_twin_entries :
    (∃ w ∈ twinConf.Worker, w.Name = "rig1") ∧ mailConfigured twinConf ∧
    (mailsOf (notify twinConf okMail "rig1" ()).trace).length = 2 ∧
    (mailsOf (notify twinConf okMail "rig1" ()).trace).length ≠ 1 := by
  decide

/-- C5, amended: one call `notify(name)` sends one email per configured worker entry whose
`Name` equals `name`, in configuration order, when the Mailjet `Key`, `Secret` and `Email`
are all non-empty, stopping after the first send that returns an error: the messages go out
one after the other, all of them when no send returns an error, and a send that returns an
error is the last one and terminates the process.  So it sends exactly one email when
exactly one entry matches, and none when no entry matches or a credential is empty.  Each
email goes to its entry's `Notify` address, has subject `name ++ " Is Offline"`, and its
text contains the pool page link followed by the configured Flexpool address. -/
theorem notify_sends_one_mail_per_matching_entry (conf : tomlConfig) (mj : MailjetClient σ)
    (name : String) (s : σ) :
    (mailConfigured conf →
      mailsOf (notify conf mj name s).trace <+:
        (conf.Worker.filter (fun w => w.Name = name)).map (notifyMessage conf name) ∧
      ((notify conf mj name s).val = some () →
        mailsOf (notify conf mj name s).trace =
          (conf.Worker.filter (fun w => w.Name = name)).map (notifyMessage conf name)) ∧
      ((∃ w ∈ conf.Worker, w.Name = name) → mailsOf (notify conf mj name s).trace ≠ []) ∧
      (∀ w, conf.Worker.filter (fun w => w.Name = name) = [w] →
        mailsOf (notify conf mj name s).trace = [notifyMessage conf name w])) ∧
    ((¬ mailConfigured conf ∨ ∀ w ∈ conf.Worker, w.Name ≠ name) →
      mailsOf (notify conf mj name s).trace = []) ∧
    (∀ m ∈ mailsOf (notify conf mj name s).trace, ∃ w ∈ conf.Worker, w.Name = name ∧
      m.To = [{ Email := w.Notify, Name := name }] ∧
      m.Subject = name ++ " Is Offline" ∧
      ∃ pre post, m.TextPart =
        pre ++ ("https://www.flexpool.io/miner/eth/" ++ conf.Flexpool.Address) ++ post) ∧
    (mailConfigured conf →
      mailsOf (notify conf mj name s).trace =
        (sendUntilError mj conf.Mailjet.Key conf.Mailjet.Secret
          ((conf.Worker.filter (fun w => w.Name = name)).map (notifyMessage conf name))
          s).map Prod.fst ∧
      mailErrorsOf (notify conf mj name s).trace =
        (sendUntilError mj conf.Mailjet.Key conf.Mailjet.Secret
          ((conf.Worker.filter (fun w => w.Name = name)).map (notifyMessage conf name))
          s).filterMap Prod.snd) ∧
    (mailConfigured conf → mailErrorsOf (notify conf mj name s).trace = [] →
      (notify conf mj name s).val = some () ∧
      mailsOf (notify conf mj name s).trace =
        (conf.Worker.filter (fun w => w.Name = name)).map (notifyMessage conf name)) ∧
    (mailErrorsOf (notify conf mj name s).trace ≠ [] →
      (notify conf mj name s).val = none ∧
      ∃ t m e, (notify conf mj name s).trace =
          t ++ [Event.SendMailV31 conf.Mailjet.Key conf.Mailjet.Secret m (some e),
                Event.log e] ∧
        mailErrorsOf t = [] ∧
        mailsOf (notify conf mj name s).trace = mailsOf t ++ [m]) := by
  obtain ⟨-, -, -, h4, h5, h6, h7⟩ := notify_spec conf mj name s
  obtain ⟨hs1, hs2⟩ := notify_sends conf mj name s
  have hfe := notify_fatalEnd conf mj name s
  have hkey : ∀ k c m e, Event.SendMailV31 k c m (some e) ∈ (notify conf mj name s).trace →
      k = conf.Mailjet.Key ∧ c = conf.Mailjet.Secret := by
    intro k c m e hmem
    exact notify_send_keys conf mj name s k c m (some e) hmem
  refine ⟨?_, ?_, ?_, ?_, ?_, ?_⟩
  rotate_left 3
  · intro hc
    have hN : notifyMessages conf name conf.Worker =
        (conf.Worker.filter (fun w => w.Name = name)).map (notifyMessage conf name) := by
      simp [notifyMessages, matchingEntries, hc]
    rw [hN] at hs1 hs2
    exact ⟨hs1, hs2⟩
  · intro hc hnil
    have hN : notifyMessages conf name conf.Worker =
        (conf.Worker.filter (fun w => w.Name = name)).map (notifyMessage conf name) := by
      simp [notifyMessages, matchingEntries, hc]
    have hv : (notify conf mj name s).val = some () := by
      cases hval : (notify conf mj name s).val with
      | none => exact absurd hnil (h4.mp hval)
      | some u => rfl
    exact ⟨hv, by rw [h6 hv, hN]⟩
  · intro hne
    have hv := h4.mpr hne
    obtain ⟨t, k, c, m, e, e1, e2⟩ := hfe hv
    have hk := hkey k c m e (by rw [e1]; simp)
    refine ⟨hv, t, m, e, ?_, e2, ?_⟩
    · rw [e1, hk.1, hk.2]
    · rw [e1]; simp
  · intro hc
    have hN : notifyMessages conf name conf.Worker =
        (conf.Worker.filter (fun w => w.Name = name)).map (notifyMessage conf name) := by
      simp [notifyMessages, matchingEntries, hc]
    rw [hN] at h5 h6 h7
    refine ⟨h5, h6, ?_, ?_⟩
    · rintro ⟨w, hw, hn⟩
      apply h7
      intro hnil
      have hmem : w ∈ conf.Worker.filter (fun w => w.Name = name) := by
        simp [List.mem_filter, hw, hn]
      have := List.map_eq_nil_iff.mp hnil
      rw [this] at hmem
      cases hmem
    · intro w hw
      rw [hw] at h5 h7
      have hne := h7 (by simp)
      rcases hM : mailsOf (notify conf mj name s).trace with _ | ⟨m, rest⟩
      · exact absurd hM hne
      · rw [hM] at h5
        simp only [List.map_cons, List.map_nil] at h5
        have hlen := h5.length_le
        obtain ⟨t, ht⟩ := h5
        cases rest with
        | nil =>
          have ht2 : m = notifyMessage conf name w ∧ t = [] := by simpa using ht
          simp [ht2.1]
        | cons r rs => simp at hlen
  · intro h
    have hN : notifyMessages conf name conf.Worker = [] := by
      rcases h with h | h
      · simp [notifyMessages, h]
      · have : matchingEntries name conf.Worker = [] := by
          simp only [matchingEntries, List.filter_eq_nil_iff]
          intro w hw
          simpa using h w hw
        simp [notifyMessages, this]
    rw [hN] at h5
    exact List.prefix_nil.mp h5
  · intro m hm
    have hm2 : m ∈ notifyMessages conf name conf.Worker := h5.subset hm
    unfold notifyMessages at hm2
    split at hm2
    · simp only [matchingEntries, List.mem_map, List.mem_filter] at hm2
      obtain ⟨w, ⟨hw, hn⟩, rfl⟩ := hm2
      have hn2 : w.Name = name := by simpa using hn
      refine ⟨w, hw, hn2, rfl, by simp [notifyMessage, hn2], ?_⟩
      refine ⟨"Worker `" ++ w.Name ++ "` Is Offline.\n\nPlease check your pool: ", ".", ?_⟩
      have hlit : "` Is Offline.\n\nPlease check your pool: https://www.flexpool.io/miner/eth/" =
          "` Is Offline.\n\nPlease check your pool: " ++ "https://www.flexpool.io/miner/eth/" := by
        decide
      simp only [notifyMessage]
      rw [hlit]
      simp only [String.append_assoc]
    · cases hm2

/-- Witness for C5: one configured entry named `rig1`, none named `rig9`; and, with two
entries named `rig1` and a mail service that rejects every message, only the first message
is sent and the process exits. -/
theorem notify_sends_one_mail_per_matching_entry_witness :
    mailsOf (notify demoConf okMail "rig1" ()).trace =
      [notifyMessage demoConf "rig1" { Name := "rig1", Notify := "owner@example.org" }] ∧
    mailsOf (notify demoConf okMail "rig9" ()).trace = [] ∧
    mailsOf (notify twinConf failMail "rig1" ()).trace =
      [notifyMessage twinConf "rig1" { Name := "rig1", Notify := "owner@example.org" }] ∧
    (notify twinConf failMail "rig1" ()).val = none ∧
    mailsOf (notify twinConf okMail "rig1" ()).trace =
      [notifyMessage twinConf "rig1" { Name := "rig1", Notify := "owner@example.org" },
       notifyMessage twinConf "rig1" { Name := "rig1", Notify := "backup@example.org" }] := by
  have h := notify_sends_one_mail_per_matching_entry demoConf okMail "rig1" ()
  have g := notify_sends_one_mail_per_matching_entry demoConf okMail "rig9" ()
  have f := notify_sends_one_mail_per_matching_entry twinConf failMail "rig1" ()
  have t := notify_sends_one_mail_per_matching_entry twinConf okMail "rig1" ()
  exact ⟨(h.1 (by decide)).2.2.2 _ (by decide), g.2.1 (Or.inr (by decide)),
    (f.2.2.2.1 (by decide)).1.trans (by decide), (f.2.2.2.2.2 (by decide)).1,
    (t.2.2.2.2.1 (by decide) (by decide)).2.trans (by decide)⟩

/-- C8: when `GetBalance` answers the balance `b` without error, `fetchBalance` makes
exactly one persistence call, `SaveBalance(poolname, address, b)`, with `b` unchanged;
a second run with the same gateway answer makes the identical call, whatever the store
answered before and whatever state the earlier run left. -/
theorem fetchBalance_saves_gateway_balance_unchanged {τ : Type} (flexapi again : FlexAPI)
    (store later : Storage) (poolname address : String) (b : Int) (s : σ) (s2 : τ)
    (h1 : flexapi.GetBalance address = (none, b))
    (h2 : again.GetBalance address = (none, b)) :
    savesOf (fetchBalance flexapi store poolname address s).trace =
      [Event.SaveBalance poolname address b] ∧
    savesOf (fetchBalance again later poolname address s2).trace =
      savesOf (fetchBalance flexapi store poolname address s).trace ∧
    (fetchBalance flexapi store poolname address s).val = some () := by
  obtain ⟨l1, t1, v1⟩ := fetchBalance_ok flexapi store poolname address b s h1
  obtain ⟨l2, t2, -⟩ := fetchBalance_ok again later poolname address b s2 h2
  simp [t1, t2, v1]

/-- Witness for C8: balance 42, saved once by a store that accepts it and once by a store
that rejects it. -/
theorem fetchBalance_saves_gateway_balance_unchanged_witness :
    savesOf (fetchBalance demoAPI demoStore "flexpool" "0xABC" ()).trace =
      [Event.SaveBalance "flexpool" "0xABC" 42] ∧
    savesOf (fetchBalance demoAPI brokenStore "flexpool" "0xABC" ()).trace =
      savesOf (fetchBalance demoAPI demoStore "flexpool" "0xABC" ()).trace ∧
    (fetchBalance demoAPI demoStore "flexpool" "0xABC" ()).val = some () :=
  fetchBalance_saves_gateway_balance_unchanged demoAPI demoAPI demoStore brokenStore
    "flexpool" "0xABC" 42 () () rfl rfl

theorem flatMap_poolJobs_of_ok (ty : Int) (store : Storage) (poolnames : List String)
    (hok : ∀ p ∈ poolnames, (store.GetAddresses p).1 = none) :
    poolnames.flatMap (poolJobs ty store) =
      poolnames.flatMap (fun p => (store.GetAddresses p).2.map (tickJob ty p)) := by
  induction poolnames with
  | nil => rfl
  | cons p rest ih =>
    have hp := poolJobs_of_ok ty store p (hok p (List.mem_cons_self _ _))
    have hr := ih (fun q hq => hok q (List.mem_cons_of_mem _ hq))
    simp only [List.flatMap_cons, hp, hr]

theorem flatMap_poolJobs_retype (ty ty2 : Int) (store : Storage) (poolnames : List String) :
    poolnames.flatMap (poolJobs ty2 store) =
      (poolnames.flatMap (poolJobs ty store)).map (fun j => { j with Type_ := ty2 }) := by
  induction poolnames with
  | nil => rfl
  | cons p rest ih =>
    have hp : poolJobs ty2 store p =
        (poolJobs ty store p).map (fun j => { j with Type_ := ty2 }) := by
      rcases hg : store.GetAddresses p with ⟨_ | err, addresses⟩ <;>
        simp [poolJobs, hg, tickJob]
    simp only [List.flatMap_cons, List.map_append, hp, ih]

theorem flatMap_poolJobs_filter (ty : Int) (store : Storage) (poolnames : List String)
    (p : String) (herr : (store.GetAddresses p).1 ≠ none) :
    poolnames.flatMap (poolJobs ty store) =
      (poolnames.filter (fun q => q ≠ p)).flatMap (poolJobs ty store) := by
  induction poolnames with
  | nil => rfl
  | cons q rest ih =>
    by_cases hq : q = p
    · subst hq
      simp [List.flatMap_cons, poolJobs_of_err ty store q herr, ih]
    · simp [List.flatMap_cons, hq, ih]

theorem ticker_jobs (ty : Int) (line : String) (poolnames : List String) (store : Storage)
    (later : List Storage) (s : σ) :
    jobsOf (((Proc.emit (.log line) : Proc σ Unit) >>= fun _ =>
        tickerLoop ty poolnames (store :: later)) s).trace =
      jobsOf (tickPools ty store poolnames s).trace ++
        jobsOf (((Proc.emit (.log line) : Proc σ Unit) >>= fun _ =>
          tickerLoop ty poolnames later) s).trace ∧
    (((Proc.emit (.log line) : Proc σ Unit) >>= fun _ =>
        tickerLoop ty poolnames (store :: later)) s).val = some () := by
  obtain ⟨a1, a2, a3⟩ := tickerLoop_spec ty poolnames (store :: later) s
  obtain ⟨b1, -, -⟩ := tickerLoop_spec ty poolnames later s
  obtain ⟨c1, -⟩ := tickPools_spec ty store poolnames s
  simp [a1, a2, b1, c1]

/-- C2: when `GetAddresses` answers without error for every pool name of the list, one fire
of a ticker sends exactly one job per (pool name, address) pair, pool by pool in the order
of the list and, within a pool, in the order of the answered addresses; each job carries
that pool name and address, an empty worker name, `Id` 0, and the type `FetchWorkers` for
`FetchDataTicker` and `FetchBalance` for `FetchBalanceTicker`; the two fires differ only in
the type. -/
theorem tick_enqueues_one_job_per_pool_address (store : Storage) (poolnames : List String)
    (s : σ) (hok : ∀ p ∈ poolnames, (store.GetAddresses p).1 = none) :
    jobsOf (FetchDataTick store poolnames s).trace =
      poolnames.flatMap (fun p => (store.GetAddresses p).2.map (fun a =>
        ({ Id := 0, Poolname := p, Address := a, Workername := "",
           Type_ := JobFetchWorkers } : Job))) ∧
    jobsOf (FetchBalanceTick store poolnames s).trace =
      poolnames.flatMap (fun p => (store.GetAddresses p).2.map (fun a =>
        ({ Id := 0, Poolname := p, Address := a, Workername := "",
           Type_ := JobFetchBalance } : Job))) ∧
    jobsOf (FetchBalanceTick store poolnames s).trace =
      (jobsOf (FetchDataTick store poolnames s).trace).map
        (fun j => { j with Type_ := JobFetchBalance }) := by
  obtain ⟨a1, -⟩ := tickPools_spec JobFetchWorkers store poolnames s
  obtain ⟨b1, -⟩ := tickPools_spec JobFetchBalance store poolnames s
  refine ⟨?_, ?_, ?_⟩
  · rw [FetchDataTick, a1, flatMap_poolJobs_of_ok JobFetchWorkers store poolnames hok]
    rfl
  · rw [FetchBalanceTick, b1, flatMap_poolJobs_of_ok JobFetchBalance store poolnames hok]
    rfl
  · rw [FetchBalanceTick, FetchDataTick, a1, b1]
    exact flatMap_poolJobs_retype JobFetchWorkers JobFetchBalance store poolnames

/-- Witness for C2: two pool names, one tracked address each. -/
theorem tick_enqueues_one_job_per_pool_address_witness :
    jobsOf (FetchDataTick demoStore ["flexpool", "ethermine"] ()).trace =
      [{ Poolname := "flexpool", Address := "0xABC", Type_ := JobFetchWorkers },
       { Poolname := "ethermine", Address := "0xABC", Type_ := JobFetchWorkers }] ∧
    jobsOf (FetchBalanceTick demoStore ["flexpool", "ethermine"] ()).trace =
      [{ Poolname := "flexpool", Address := "0xABC", Type_ := JobFetchBalance },
       { Poolname := "ethermine", Address := "0xABC", Type_ := JobFetchBalance }] := by
  have h := tick_enqueues_one_job_per_pool_address demoStore ["flexpool", "ethermine"] ()
    (by intro p _; rfl)
  exact ⟨h.1, h.2.1⟩

/-- C3: when `GetAddresses` answers an error for the pool name `p`, a fire of either ticker
sends no job with pool name `p`, returns normally (the process keeps running), sends for
the other pool names of the list exactly the jobs it sends when `p` is removed from the
list, and the ticker loop goes on with its later fires. -/
theorem tick_skips_pool_on_directory_error (store : Storage) (poolnames : List String)
    (p : String) (later : List Storage) (s : σ) (herr : (store.GetAddresses p).1 ≠ none) :
    (∀ j ∈ jobsOf (FetchDataTick store poolnames s).trace, j.Poolname ≠ p) ∧
    (∀ j ∈ jobsOf (FetchBalanceTick store poolnames s).trace, j.Poolname ≠ p) ∧
    (FetchDataTick store poolnames s).val = some () ∧
    (FetchBalanceTick store poolnames s).val = some () ∧
    jobsOf (FetchDataTick store poolnames s).trace =
      jobsOf (FetchDataTick store (poolnames.filter (fun q => q ≠ p)) s).trace ∧
    jobsOf (FetchBalanceTick store poolnames s).trace =
      jobsOf (FetchBalanceTick store (poolnames.filter (fun q => q ≠ p)) s).trace ∧
    jobsOf (FetchDataTicker (store :: later) poolnames s).trace =
      jobsOf (FetchDataTick store poolnames s).trace ++
        jobsOf (FetchDataTicker later poolnames s).trace ∧
    jobsOf (FetchBalanceTicker (store :: later) poolnames s).trace =
      jobsOf (FetchBalanceTick store poolnames s).trace ++
        jobsOf (FetchBalanceTicker later poolnames s).trace ∧
    (FetchDataTicker (store :: later) poolnames s).val = some () ∧
    (FetchBalanceTicker (store :: later) poolnames s).val = some () := by
  have hno : ∀ ty, ∀ j ∈ jobsOf (tickPools ty store poolnames s).trace, j.Poolname ≠ p := by
    intro ty j hj
    rw [(tickPools_spec ty store poolnames s).1, List.mem_flatMap] at hj
    obtain ⟨q, -, hjq⟩ := hj
    obtain ⟨h1, h2, -⟩ := poolJobs_poolname ty store q j hjq
    intro hp
    rw [h1] at hp
    rw [hp] at h2
    exact herr h2
  have hfil : ∀ ty, jobsOf (tickPools ty store poolnames s).trace =
      jobsOf (tickPools ty store (poolnames.filter (fun q => q ≠ p)) s).trace := by
    intro ty
    rw [(tickPools_spec ty store poolnames s).1, (tickPools_spec ty store _ s).1]
    exact flatMap_poolJobs_filter ty store poolnames p herr
  have hd := ticker_jobs JobFetchWorkers "run fetchDataTicker" poolnames store later s
  have hb := ticker_jobs JobFetchBalance "run fetchBalanceTicker" poolnames store later s
  exact ⟨hno JobFetchWorkers, hno JobFetchBalance,
    (tickPools_spec JobFetchWorkers store poolnames s).2.1,
    (tickPools_spec JobFetchBalance store poolnames s).2.1,
    hfil JobFetchWorkers, hfil JobFetchBalance, hd.1, hb.1, hd.2, hb.2⟩

/-- Witness for C3: the address query fails for `flexpool` and succeeds for `ethermine`. -/
theorem tick_skips_pool_on_directory_error_witness :
    (∀ j ∈ jobsOf (FetchDataTick brokenStore ["flexpool", "ethermine"] ()).trace,
      j.Poolname ≠ "flexpool") ∧
    jobsOf (FetchDataTick brokenStore ["flexpool", "ethermine"] ()).trace =
      jobsOf (FetchDataTick brokenStore
        (["flexpool", "ethermine"].filter (fun q => q ≠ "flexpool")) ()).trace ∧
    jobsOf (FetchDataTicker [brokenStore, demoStore] ["flexpool", "ethermine"] ()).trace =
      jobsOf (FetchDataTick brokenStore ["flexpool", "ethermine"] ()).trace ++
        jobsOf (FetchDataTicker [demoStore] ["flexpool", "ethermine"] ()).trace := by
  have h := tick_skips_pool_on_directory_error brokenStore ["flexpool", "ethermine"] "flexpool"
    [demoStore] () (by decide)
  exact ⟨h.1, h.2.2.2.2.1, h.2.2.2.2.2.2.1⟩

/-- C6: processing a job, or a fire of a ticker, terminates the process exactly when a mail
send returned an error.  A failed send inside `notify` is fatal and is the last thing the
task does: `fetchWorker` has then sent the `FetchChart` jobs and made the `notify` calls for
the workers up to the one being notified, and none for the workers after it.  A fire of a
ticker, `fetchWorkerChart`, `fetchBalance`, and `fetchWorker` on a gateway error always
return normally, whatever `GetAddresses`, the gateway and `SaveBalance` answer. -/
theorem process_exits_iff_mail_send_fails (conf : tomlConfig) (mj : MailjetClient σ)
    (flexapi : FlexAPI) (store : Storage) (jobid : Int) (j : Job) (poolnames : List String)
    (poolname address workername : String) (s : σ) :
    ((runworkerJob conf mj flexapi store jobid j s).val = none ↔
      mailErrorsOf (runworkerJob conf mj flexapi store jobid j s).trace ≠ []) ∧
    ((FetchDataTick store poolnames s).val = none ↔
      mailErrorsOf (FetchDataTick store poolnames s).trace ≠ []) ∧
    ((FetchBalanceTick store poolnames s).val = none ↔
      mailErrorsOf (FetchBalanceTick store poolnames s).trace ≠ []) ∧
    ((notify conf mj workername s).val = none ↔
      mailErrorsOf (notify conf mj workername s).trace ≠ []) ∧
    ((runworkerJob conf mj flexapi store jobid j s).val = none →
      ∃ t k c m e, (runworkerJob conf mj flexapi store jobid j s).trace =
        t ++ [Event.SendMailV31 k c m (some e), Event.log e] ∧ mailErrorsOf t = []) ∧
    ((fetchWorker conf mj flexapi poolname address s).val = none →
      ∃ pre w post, flexapi.GetWorkers address = (none, pre ++ w :: post) ∧
        w.Online = false ∧
        jobsOf (fetchWorker conf mj flexapi poolname address s).trace =
          (pre ++ [w]).map (chartJob poolname address) ∧
        notifiesOf (fetchWorker conf mj flexapi poolname address s).trace =
          offlineNames (pre ++ [w])) ∧
    (FetchDataTick store poolnames s).val = some () ∧
    (FetchBalanceTick store poolnames s).val = some () ∧
    ((flexapi.GetWorkers address).1 ≠ none →
      (fetchWorker conf mj flexapi poolname address s).val = some ()) ∧
    (fetchWorkerChart flexapi poolname address workername s).val = some () ∧
    (fetchBalance flexapi store poolname address s).val = some () := by
  obtain ⟨r1, r2, -, -⟩ := runworkerJob_facts conf mj flexapi store jobid j s
  obtain ⟨-, d2, -, d4, -⟩ := tickPools_spec JobFetchWorkers store poolnames s
  obtain ⟨-, b2, -, b4, -⟩ := tickPools_spec JobFetchBalance store poolnames s
  obtain ⟨-, -, -, n4, -⟩ := notify_spec conf mj workername s
  refine ⟨r1, by simp [FetchDataTick, d2, d4], by simp [FetchBalanceTick, b2, b4], n4, r2,
    ?_, d2, b2, ?_, (fetchWorkerChart_spec flexapi poolname address workername s).1,
    (fetchBalance_spec flexapi store poolname address s).1⟩
  · intro hv
    rcases hg : flexapi.GetWorkers address with ⟨_ | err, workers⟩
    · obtain ⟨t, v⟩ := fetchWorker_ok conf mj flexapi poolname address workers s hg
      rw [v] at hv
      obtain ⟨pre, w, post, e1, e2, e3, e4⟩ :=
        (fetchWorkerLoop_spec conf mj poolname address workers s).2.2.2 hv
      exact ⟨pre, w, post, by rw [e1], e2, by simp [t, e3], by simp [t, e4]⟩
    · have hne : (flexapi.GetWorkers address).1 ≠ none := by simp [hg]
      obtain ⟨e, -, v⟩ := fetchWorker_err conf mj flexapi poolname address s hne
      rw [v] at hv
      cases hv
  · intro hne
    obtain ⟨e, -, v⟩ := fetchWorker_err conf mj flexapi poolname address s hne
    exact v

/-- Witness for C6: two offline workers and a mail service that rejects every message; the
job for the second worker is never sent. -/
theorem process_exits_iff_mail_send_fails_witness :
    (∃ pre w post, twoRigAPI.GetWorkers "0xABC" = (none, pre ++ w :: post) ∧
      w.Online = false ∧
      jobsOf (fetchWorker demoConf failMail twoRigAPI "flexpool" "0xABC" ()).trace =
        (pre ++ [w]).map (chartJob "flexpool" "0xABC") ∧
      notifiesOf (fetchWorker demoConf failMail twoRigAPI "flexpool" "0xABC" ()).trace =
        offlineNames (pre ++ [w])) ∧
    (fetchWorker demoConf failMail downAPI "flexpool" "0xABC" ()).val = some () := by
  have h := process_exits_iff_mail_send_fails demoConf failMail twoRigAPI brokenStore 0
    { Poolname := "flexpool", Address := "0xABC", Type_ := JobFetchWorkers } ["flexpool"]
    "flexpool" "0xABC" "rig1" ()
  have g := process_exits_iff_mail_send_fails demoConf failMail downAPI brokenStore 0
    { Poolname := "flexpool", Address := "0xABC", Type_ := JobFetchWorkers } ["flexpool"]
    "flexpool" "0xABC" "rig1" ()
  exact ⟨h.2.2.2.2.2.1 (by decide), g.2.2.2.2.2.2.2.2.1 (by decide)⟩

/-- C7: the type of the dequeued job alone selects the gateway and persistence calls of its
processing: a `FetchWorkers` job makes the single call `GetWorkers(Address)`; a `FetchChart`
job calls `GetWorkersChart(Address, Workername)` and, when that answers without error,
`SaveWorkerChart(Poolname, Address, Workername, data)`; a `FetchBalance` job calls
`GetBalance(Address)` and, when that answers without error,
`SaveBalance(Poolname, Address, balance)`; a job of any other type makes no call, sends no
job, and notifies nobody. -/
theorem runworker_calls_determined_by_job_type (conf : tomlConfig) (mj : MailjetClient σ)
    (flexapi : FlexAPI) (store : Storage) (jobid : Int) (j : Job) (s : σ) :
    (j.Type_ = JobFetchWorkers →
      callsOf (runworkerJob conf mj flexapi store jobid j s).trace =
        [Event.GetWorkers j.Address]) ∧
    (j.Type_ = JobFetchChart →
      callsOf (runworkerJob conf mj flexapi store jobid j s).trace =
        Event.GetWorkersChart j.Address j.Workername ::
          (if (flexapi.GetWorkersChart j.Address j.Workername).1 = none then
            [Event.SaveWorkerChart j.Poolname j.Address j.Workername
              (flexapi.GetWorkersChart j.Address j.Workername).2]
          else [])) ∧
    (j.Type_ = JobFetchBalance →
      callsOf (runworkerJob conf mj flexapi store jobid j s).trace =
        Event.GetBalance j.Address ::
          (if (flexapi.GetBalance j.Address).1 = none then
            [Event.SaveBalance j.Poolname j.Address (flexapi.GetBalance j.Address).2]
          else [])) ∧
    (j.Type_ ≠ JobFetchWorkers → j.Type_ ≠ JobFetchChart → j.Type_ ≠ JobFetchBalance →
      callsOf (runworkerJob conf mj flexapi store jobid j s).trace = [] ∧
      jobsOf (runworkerJob conf mj flexapi store jobid j s).trace = [] ∧
      notifiesOf (runworkerJob conf mj flexapi store jobid j s).trace = [] ∧
      mailsOf (runworkerJob conf mj flexapi store jobid j s).trace = []) := by
  obtain ⟨-, -, -, hc⟩ := runworkerJob_facts conf mj flexapi store jobid j s
  refine ⟨?_, ?_, ?_, ?_⟩
  · intro h
    rw [hc, dispatch_workers conf mj flexapi store j h]
    exact (fetchWorker_spec conf mj flexapi j.Poolname j.Address s).1
  · intro h
    rw [hc, dispatch_chart conf mj flexapi store j h]
    rcases hg : flexapi.GetWorkersChart j.Address j.Workername with ⟨_ | err, result⟩
    · obtain ⟨t, -⟩ := fetchWorkerChart_ok flexapi j.Poolname j.Address j.Workername result s hg
      simp [t]
    · have hne : (flexapi.GetWorkersChart j.Address j.Workername).1 ≠ none := by simp [hg]
      obtain ⟨e, t, -⟩ := fetchWorkerChart_err flexapi j.Poolname j.Address j.Workername s hne
      simp [t]
  · intro h
    rw [hc, dispatch_balance conf mj flexapi store j h]
    rcases hg : flexapi.GetBalance j.Address with ⟨_ | err, balance⟩
    · obtain ⟨l, t, -⟩ := fetchBalance_ok flexapi store j.Poolname j.Address balance s hg
      simp [t]
    · have hne : (flexapi.GetBalance j.Address).1 ≠ none := by simp [hg]
      obtain ⟨e, t, -⟩ := fetchBalance_err flexapi store j.Poolname j.Address s hne
      simp [t]
  · intro h0 h1 h2
    obtain ⟨t, -⟩ := runworkerJob_spec conf mj flexapi store jobid j s
    rw [dispatch_other conf mj flexapi store j h0 h1 h2] at t
    simp [t]

/-- Witness for C7: one job of each type, and one of the unknown type 7. -/
theorem runworker_calls_determined_by_job_type_witness :
    callsOf (runworkerJob demoConf okMail demoAPI demoStore 0
      { Poolname := "flexpool", Address := "0xABC", Type_ := JobFetchWorkers } ()).trace =
        [Event.GetWorkers "0xABC"] ∧
    callsOf (runworkerJob demoConf okMail demoAPI demoStore 0
      { Poolname := "flexpool", Address := "0xABC", Workername := "rig1",
        Type_ := JobFetchChart } ()).trace =
        [Event.GetWorkersChart "0xABC" "rig1",
         Event.SaveWorkerChart "flexpool" "0xABC" "rig1" { payload := "chart" }] ∧
    callsOf (runworkerJob demoConf okMail demoAPI demoStore 0
      { Poolname := "flexpool", Address := "0xABC", Type_ := JobFetchBalance } ()).trace =
        [Event.GetBalance "0xABC", Event.SaveBalance "flexpool" "0xABC" 42] ∧
    callsOf (runworkerJob demoConf okMail demoAPI demoStore 0
      { Poolname := "flexpool", Address := "0xABC", Type_ := 7 } ()).trace = [] := by
  refine ⟨?_, ?_, ?_, ?_⟩
  · exact (runworker_calls_determined_by_job_type demoConf okMail demoAPI demoStore 0
      { Poolname := "flexpool", Address := "0xABC", Type_ := JobFetchWorkers } ()).1 rfl
  · exact (runworker_calls_determined_by_job_type demoConf okMail demoAPI demoStore 0
      { Poolname := "flexpool", Address := "0xABC", Workername := "rig1",
        Type_ := JobFetchChart } ()).2.1 rfl
  · exact (runworker_calls_determined_by_job_type demoConf okMail demoAPI demoStore 0
      { Poolname := "flexpool", Address := "0xABC", Type_ := JobFetchBalance } ()).2.2.1 rfl
  · exact ((runworker_calls_determined_by_job_type demoConf okMail demoAPI demoStore 0
      { Poolname := "flexpool", Address := "0xABC", Type_ := 7 } ()).2.2.2
      (by decide) (by decide) (by decide)).1

/-- C9, as stated, fails: with the pool names of `main` and a store whose registered address is
the empty string, one fire of the data ticker sends a job whose `Address` is empty. -/
theorem tick_enqueues_job_with_empty_address :
    ∃ sys, Reachable demoConf mainPoolnames (fun _ => True) sys ∧
      ∃ j ∈ sys.sent, j.Poolname = "flexpool" ∧ j.Address = "" := by
  refine ⟨_, Relation.ReflTransGen.single
    (Step.dataTick System.init blankStore trivial rfl), ?_⟩
  decide

/-- C9, amended: every job ever sent on the job channel, by a fire of a ticker or by
`fetchWorker` while a `FetchWorkers` job is processed, has a `Poolname` that is one of the
pool names passed to the tickers (`"flexpool"` as wired in `main`) and an `Address` that
`GetAddresses` answered, without error, for that pool name; the `Poolname` is non-empty when
the pool names passed are, and the `Address` is non-empty when the stores answer only
non-empty addresses. -/
theorem enqueued_jobs_name_tracked_pool_and_address (conf : tomlConfig)
    (poolnames : List String) (stores : Storage → Prop) (sys : System)
    (h : Reachable conf poolnames stores sys) (j : Job) (hj : j ∈ sys.sent) :
    j.Poolname ∈ poolnames ∧
    (∃ store, stores store ∧ (store.GetAddresses j.Poolname).1 = none ∧
      j.Address ∈ (store.GetAddresses j.Poolname).2) ∧
    (poolnames = mainPoolnames → j.Poolname = "flexpool") ∧
    ((∀ p ∈ poolnames, p ≠ "") → j.Poolname ≠ "") ∧
    ((∀ store, stores store → ∀ p, ∀ a ∈ (store.GetAddresses p).2, a ≠ "") →
      j.Address ≠ "") := by
  obtain ⟨hp, store, hs, hok, ha⟩ := (reachable_invariant conf poolnames stores sys h).2 j hj
  refine ⟨hp, ⟨store, hs, hok, ha⟩, ?_, ?_, ?_⟩
  · intro hm
    rw [hm] at hp
    simpa [mainPoolnames] using hp
  · intro hne
    exact hne _ hp
  · intro hne
    exact hne store hs _ _ ha

/-- Witness for C9: the job sent by the first fire of the data ticker for the address `0xABC`. -/
theorem enqueued_jobs_name_tracked_pool_and_address_witness :
    (tickJob JobFetchWorkers "flexpool" "0xABC").Poolname ∈ mainPoolnames ∧
    (tickJob JobFetchWorkers "flexpool" "0xABC").Poolname = "flexpool" ∧
    (tickJob JobFetchWorkers "flexpool" "0xABC").Address ≠ "" := by
  have h := enqueued_jobs_name_tracked_pool_and_address demoConf mainPoolnames
    (fun st => st.GetAddresses = demoStore.GetAddresses) _
    (Relation.ReflTransGen.single (Step.dataTick System.init demoStore rfl rfl))
    (tickJob JobFetchWorkers "flexpool" "0xABC") (by decide)
  refine ⟨h.1, h.2.2.1 rfl, h.2.2.2.2 ?_⟩
  intro st hst p a ha
  rw [hst] at ha
  simp only [demoStore, List.mem_singleton] at ha
  rw [ha]
  decide

end Fairshares
